import Mathlib

/-!
Verification development for the multi-stage annotation pipeline
(labeler / critic / validator / fallback orchestration, JSON response
decoder, review-queue store).

The definitions below are shallow embeddings of the Python source:

* `parse_llm_json` embeds `src/llm_utils.py:parse_llm_json` (the robust
  JSON decoder), including a model of Python's `json.loads` and of the
  exact regular expressions used by the source.
* `labeler_node`, `critic_node`, `validator_node`, `fallback_node` embed
  the LangGraph node functions of `src/agents.py`; the LLM calls are
  abstracted by an environment (`Env`) that supplies the per-attempt
  decode outcomes, which is the only way the LLM text reaches the state
  machine.
* `stepRun` / `traceRun` / `run_labeling_graph` embed the compiled graph
  execution of `src/graph.py:run_labeling_graph`.
* `reviewFileName` / `delete_review_item` embed the file naming and the
  deletion filter of `src/fallback.py`.

Machine integers are modelled as `Int` (Python integers are unbounded);
Python floor division `//` is `Int.fdiv`.  Python dictionaries with a
fixed key set are modelled as structures; a key that may hold `None` is
an `Option` field.  Exceptions that escape a node are modelled
explicitly (`Option` results / the `RunOutcome.raised` constructor).
-/

namespace LabelPipeline

/-! ## A model of Python `json.loads`

The decoder in `src/llm_utils.py` calls `json.loads`.  We model strict
JSON parsing: values are objects, arrays, strings, numbers,
`true`/`false`/`null`, plus the Python extensions `NaN`, `Infinity` and
`-Infinity`.  Numeric literals are kept as their lexeme (the pipeline
never computes with decoded numbers, so float semantics are not
needed).  Python `dict` keeps the last value for a duplicated key and
the insertion position of the first occurrence; `dedupPairs` mirrors
that. -/

inductive Json where
  | null : Json
  | bool (b : Bool) : Json
  | num (lexeme : String) : Json
  | str (s : String) : Json
  | arr (elems : List Json) : Json
  | obj (members : List (String × Json)) : Json

def lbrace : Char := Char.ofNat 123

def rbrace : Char := Char.ofNat 125

def squote : Char := Char.ofNat 39

/-- JSON whitespace, as accepted by Python's `json` module between
tokens: space, tab, newline, carriage return. -/
def isJsonWs (c : Char) : Bool :=
  c = ' ' || c = '\t' || c = '\n' || c = '\r'

def skipWs (cs : List Char) : List Char := cs.dropWhile isJsonWs

/-- Prefix test on character lists (needle first). -/
def startsWithL : List Char → List Char → Bool
  | [], _ => true
  | _ :: _, [] => false
  | a :: as, b :: bs => a = b && startsWithL as bs

/-- Substring test on character lists (needle first). -/
def hasSub (needle : List Char) : List Char → Bool
  | [] => startsWithL needle []
  | c :: rest => startsWithL needle (c :: rest) || hasSub needle rest

def isHexDigit (c : Char) : Bool :=
  c.isDigit || ('a' ≤ c && c ≤ 'f') || ('A' ≤ c && c ≤ 'F')

def hexVal (c : Char) : Nat :=
  if c.isDigit then c.toNat - 48
  else if 'a' ≤ c && c ≤ 'f' then c.toNat - 87
  else c.toNat - 55

/-- One escape character after a backslash inside a JSON string
(`\u` is handled separately). -/
def escChar (c : Char) : Option Char :=
  if c = '"' then some '"'
  else if c = '\\' then some '\\'
  else if c = '/' then some '/'
  else if c = 'b' then some (Char.ofNat 8)
  else if c = 'f' then some (Char.ofNat 12)
  else if c = 'n' then some '\n'
  else if c = 'r' then some '\r'
  else if c = 't' then some '\t'
  else none

/-- Parse the body of a JSON string after the opening quote; returns the
decoded characters and the remaining input.  Raw control characters are
rejected, as `json.loads` does in strict mode.  A `\uXXXX` escape is
decoded to the corresponding scalar (surrogates, which Lean `Char`
cannot hold, degrade to `Char.ofNat`'s default; the pipeline inputs we
reason about contain none). -/
def parseStrBody : List Char → Option (List Char × List Char)
  | [] => none
  | c :: rest =>
    if c = '"' then some ([], rest)
    else if c = '\\' then
      match rest with
      | 'u' :: h1 :: h2 :: h3 :: h4 :: rest2 =>
        if isHexDigit h1 && isHexDigit h2 && isHexDigit h3 && isHexDigit h4 then
          match parseStrBody rest2 with
          | some (s, r) =>
            some (Char.ofNat (((hexVal h1 * 16 + hexVal h2) * 16 + hexVal h3) * 16 + hexVal h4) :: s, r)
          | none => none
        else none
      | e :: rest2 =>
        match escChar e with
        | some ec =>
          match parseStrBody rest2 with
          | some (s, r) => some (ec :: s, r)
          | none => none
        | none => none
      | [] => none
    else if c.toNat < 32 then none
    else
      match parseStrBody rest with
      | some (s, r) => some (c :: s, r)
      | none => none

/-- Lex a JSON number: `-? (0 | [1-9][0-9]*) (. [0-9]+)? ([eE][+-]?[0-9]+)?`.
Optional parts are taken only when complete, like the scanner regex. -/
def lexNum (cs : List Char) : Option (List Char × List Char) :=
  let (sign, cs1) :=
    match cs with
    | '-' :: r => (['-'], r)
    | _ => (([] : List Char), cs)
  match cs1 with
  | '0' :: r1 => some (lexFracExp (sign ++ ['0']) r1)
  | c :: r1 =>
    if c.isDigit then
      let ds := r1.takeWhile Char.isDigit
      some (lexFracExp (sign ++ [c] ++ ds) (r1.drop ds.length))
    else none
  | [] => none
where
  lexFracExp (intPart : List Char) (r : List Char) : List Char × List Char :=
    let (withFrac, r2) :=
      match r with
      | '.' :: d :: rest =>
        if d.isDigit then
          let ds := rest.takeWhile Char.isDigit
          (intPart ++ ['.', d] ++ ds, rest.drop ds.length)
        else (intPart, r)
      | _ => (intPart, r)
    match r2 with
    | e :: rest =>
      if e = 'e' || e = 'E' then
        let (sgn, rest2) :=
          match rest with
          | s :: rr => if s = '+' || s = '-' then ([s], rr) else (([] : List Char), rest)
          | [] => (([] : List Char), rest)
        match rest2 with
        | d :: rr =>
          if d.isDigit then
            let ds := rr.takeWhile Char.isDigit
            (withFrac ++ [e] ++ sgn ++ [d] ++ ds, rr.drop ds.length)
          else (withFrac, r2)
        | [] => (withFrac, r2)
      else (withFrac, r2)
    | [] => (withFrac, r2)

/-- Python `dict` semantics for repeated keys: the value of the last
occurrence at the position of the first. -/
def dedupPairs (kvs : List (String × Json)) : List (String × Json) :=
  kvs.foldl
    (fun acc kv =>
      if acc.any (fun p => p.1 = kv.1) then
        acc.map (fun p => if p.1 = kv.1 then (p.1, kv.2) else p)
      else acc ++ [kv])
    []

mutual

/-- Recursive-descent JSON value parser (fuel-indexed; the fuel passed
by `jsonLoadsL` always suffices). -/
def parseVal : Nat → List Char → Option (Json × List Char)
  | 0, _ => none
  | Nat.succ f, cs =>
    match cs with
    | [] => none
    | c :: rest =>
      if c = '"' then
        match parseStrBody rest with
        | some (s, r) => some (.str (String.mk s), r)
        | none => none
      else if c = lbrace then
        match skipWs rest with
        | d :: r2 =>
          if d = rbrace then some (.obj [], r2)
          else
            match parseMembers f (d :: r2) with
            | some (kvs, r3) => some (.obj (dedupPairs kvs), r3)
            | none => none
        | [] => none
      else if c = '[' then
        match skipWs rest with
        | d :: r2 =>
          if d = ']' then some (.arr [], r2)
          else
            match parseElems f (d :: r2) with
            | some (xs, r3) => some (.arr xs, r3)
            | none => none
        | [] => none
      else if startsWithL "true".toList cs then some (.bool true, cs.drop 4)
      else if startsWithL "false".toList cs then some (.bool false, cs.drop 5)
      else if startsWithL "null".toList cs then some (.null, cs.drop 4)
      else if startsWithL "NaN".toList cs then some (.num "NaN", cs.drop 3)
      else if startsWithL "Infinity".toList cs then some (.num "Infinity", cs.drop 8)
      else if startsWithL "-Infinity".toList cs then some (.num "-Infinity", cs.drop 9)
      else
        match lexNum cs with
        | some (lexeme, r) => some (.num (String.mk lexeme), r)
        | none => none

/-- Object members after the opening brace (first key expected at the
head of the input). -/
def parseMembers : Nat → List Char → Option (List (String × Json) × List Char)
  | 0, _ => none
  | Nat.succ f, cs =>
    match cs with
    | c :: rest =>
      if c = '"' then
        match parseStrBody rest with
        | some (k, r1) =>
          match skipWs r1 with
          | ':' :: r2 =>
            match parseVal f (skipWs r2) with
            | some (v, r3) =>
              match skipWs r3 with
              | ',' :: r4 =>
                match parseMembers f (skipWs r4) with
                | some (kvs, r5) => some ((String.mk k, v) :: kvs, r5)
                | none => none
              | d :: r4 =>
                if d = rbrace then some ([(String.mk k, v)], r4) else none
              | [] => none
            | none => none
          | _ => none
        | none => none
      else none
    | [] => none

/-- Array elements after the opening bracket (first element expected at
the head of the input). -/
def parseElems : Nat → List Char → Option (List Json × List Char)
  | 0, _ => none
  | Nat.succ f, cs =>
    match parseVal f cs with
    | some (v, r1) =>
      match skipWs r1 with
      | ',' :: r2 =>
        match parseElems f (skipWs r2) with
        | some (xs, r3) => some (v :: xs, r3)
        | none => none
      | ']' :: r2 => some ([v], r2)
      | _ => none
    | none => none

end

/-- Model of Python `json.loads` on a character list: whitespace may
surround the single top-level value, nothing else may. -/
def jsonLoadsL (cs : List Char) : Option Json :=
  match parseVal (2 * cs.length + 2) (skipWs cs) with
  | some (v, r) => if skipWs r = [] then some v else none
  | none => none

/-- Model of Python `json.loads` on a string. -/
def json_loads (s : String) : Option Json := jsonLoadsL s.toList

/-! ## The response decoder (`src/llm_utils.py:parse_llm_json`)

The source tries, in order: direct `json.loads`; a fenced block found
by `re.search` with pattern  triple-backtick `(?:json)?\s*([\s\S]+?)`
triple-backtick; the greedy brace span `\x7b[\s\S]+\x7d`; the greedy
bracket span `\[[\s\S]+\]`; and a lenient repair (`re.sub` of
`,\s*([\x7d\]])` with the bracket, then single quotes to double)
followed by the greedy brace search again.  Each regex is modelled by a
function proved-by-construction to follow the leftmost /
greedy-vs-lazy preferences of Python's engine for that pattern.
The whitespace classes are modelled by their ASCII parts. -/

/-- Python `str.strip()` / regex `\s` whitespace (ASCII part). -/
def isPyWs (c : Char) : Bool :=
  c = ' ' || c = '\t' || c = '\n' || c = '\r' || c = Char.ofNat 11 || c = Char.ofNat 12

/-- Python `str.strip()`. -/
def pyStrip (cs : List Char) : List Char :=
  ((cs.dropWhile isPyWs).reverse.dropWhile isPyWs).reverse

/-- Is a triple backtick at the head? -/
def fenceAt (cs : List Char) : Bool := startsWithL "```".toList cs

/-- Least index `j ≥ 1` of `cs` at which a triple backtick starts
(the lazy `[\s\S]+?` must consume at least one character). -/
def fenceIdxFrom1 (cs : List Char) : Option Nat :=
  match cs with
  | [] => none
  | _ :: rest => (scan rest).map (· + 1)
where
  scan : List Char → Option Nat
    | [] => none
    | c :: rest => if fenceAt (c :: rest) then some 0 else (scan rest).map (· + 1)

/-- Backtracking for `\s*([\s\S]+?)` before the closing fence: the
greedy `\s*` prefers the longest whitespace run, giving characters back
only if no closing fence can otherwise be reached. -/
def fenceBody (u : List Char) : Option (List Char) :=
  tryWs ((u.takeWhile isPyWs).length) u
where
  tryWs : Nat → List Char → Option (List Char)
    | w, u =>
      let body := u.drop w
      match fenceIdxFrom1 body with
      | some k => some (body.take k)
      | none => match w with
        | 0 => none
        | Nat.succ w2 => tryWs w2 u

/-- Model of `re.search` for the fenced-block pattern: scan start positions left
to right; at each fence, prefer consuming a literal `json` tag (the
greedy `(?:json)?`), then match the body.  Returns capture group 1. -/
def fencedSearch : List Char → Option (List Char)
  | [] => none
  | c :: rest =>
    if fenceAt (c :: rest) then
      let t := rest.drop 2
      let withTag :=
        if startsWithL "json".toList t then fenceBody (t.drop 4) else none
      match withTag with
      | some g => some g
      | none =>
        match fenceBody t with
        | some g => some g
        | none => fencedSearch rest
    else fencedSearch rest

/-- First index of a character. -/
def idxOf (c : Char) : List Char → Option Nat
  | [] => none
  | d :: rest => if d = c then some 0 else (idxOf c rest).map (· + 1)

/-- Last index of a character. -/
def lastIdxOf (c : Char) (cs : List Char) : Option Nat :=
  match idxOf c cs.reverse with
  | some j => some (cs.length - 1 - j)
  | none => none

/-- Model of `re.search(r"\x7b[\s\S]+\x7d", t)`: the greedy match runs from the
first `\x7b` to the last `\x7d`, provided at least one character lies
between; otherwise there is no match at any start position. -/
def greedySpan (openC closeC : Char) (t : List Char) : Option (List Char) :=
  match idxOf openC t, lastIdxOf closeC t with
  | some i, some j => if i + 2 ≤ j then some ((t.drop i).take (j - i + 1)) else none
  | _, _ => none

def greedyBrace (t : List Char) : Option (List Char) := greedySpan lbrace rbrace t

def greedyBracket (t : List Char) : Option (List Char) := greedySpan '[' ']' t

/-- Model of `re.sub(r",\s*([\x7d\]])", r"\1", t)`: non-overlapping left-to-right
replacement of a comma followed by whitespace and a closing bracket by
the bracket alone (fuel-indexed; `t.length + 1` always suffices). -/
def stripTCAux : Nat → List Char → List Char
  | 0, rest => rest
  | Nat.succ f, cs =>
    match cs with
    | [] => []
    | c :: rest =>
      if c = ',' then
        let after := rest.dropWhile isPyWs
        match after with
        | d :: rest2 =>
          if d = rbrace || d = ']' then d :: stripTCAux f rest2
          else c :: stripTCAux f rest
        | [] => c :: stripTCAux f rest
      else c :: stripTCAux f rest

def stripTrailingCommas (t : List Char) : List Char := stripTCAux (t.length + 1) t

/-- Model of `t.replace("'", '"')`. -/
def replaceQuotes (t : List Char) : List Char :=
  t.map (fun c => if c = squote then '"' else c)

/-- Step 1 of the decoder: direct parse. -/
def decodeDirect (t : List Char) : Option Json := jsonLoadsL t

/-- Step 2: fenced block, interior stripped before parsing. -/
def decodeFenced (t : List Char) : Option Json :=
  (fencedSearch t).bind (fun g => jsonLoadsL (pyStrip g))

/-- Step 3: greedy brace span. -/
def decodeBrace (t : List Char) : Option Json := (greedyBrace t).bind jsonLoadsL

/-- Step 4: greedy bracket span. -/
def decodeBracket (t : List Char) : Option Json := (greedyBracket t).bind jsonLoadsL

/-- Step 5: lenient repair, then the greedy brace search again. -/
def decodeRepair (t : List Char) : Option Json :=
  (greedyBrace (replaceQuotes (stripTrailingCommas t))).bind jsonLoadsL

/-- Embedding of `parse_llm_json` from `src/llm_utils.py`.  The source
first returns `None` for an empty response or one carrying the in-band
gateway error marker, then strips the text and falls through the five
extraction steps, each silently tolerating failure. -/
def parse_llm_json (response_text : String) : Option Json :=
  if response_text = "" || startsWithL "[LLM ERROR".toList response_text.toList then none
  else
    let text := pyStrip response_text.toList
    match decodeDirect text with
    | some v => some v
    | none =>
      match decodeFenced text with
      | some v => some v
      | none =>
        match decodeBrace text with
        | some v => some v
        | none =>
          match decodeBracket text with
          | some v => some v
          | none => decodeRepair text

/-! ### The decoder algorithm as the specification words it

The spec (and claim C7) describe steps 3 and 4 as parsing the *first
balanced* brace / bracket span.  `balancedSpan` is modelled from the
spec: scan to the first opening delimiter and take the span closed by
its matching delimiter, tracking nesting depth. -/

/-- Modelled from the spec: the first balanced `openC … closeC` span. -/
def balancedSpan (openC closeC : Char) (t : List Char) : Option (List Char) :=
  match t.dropWhile (fun c => c ≠ openC) with
  | [] => none
  | c :: rest => bal rest 1 [c]
where
  bal : List Char → Nat → List Char → Option (List Char)
    | [], _, _ => none
    | c :: rest, depth, acc =>
      if c = openC then bal rest (depth + 1) (acc ++ [c])
      else if c = closeC then
        match depth with
        | 1 => some (acc ++ [c])
        | Nat.succ d => bal rest d (acc ++ [c])
        | 0 => none
      else bal rest depth (acc ++ [c])

/-- Modelled from the spec (claim C7's wording): the five-step decoder
with *balanced*-span searches in steps 3–5, first success wins, `none`
when every step fails. -/
def decode_spec (response_text : String) : Option Json :=
  let t := pyStrip response_text.toList
  match decodeDirect t with
  | some v => some v
  | none =>
    match decodeFenced t with
    | some v => some v
    | none =>
      match (balancedSpan lbrace rbrace t).bind jsonLoadsL with
      | some v => some v
      | none =>
        match (balancedSpan '[' ']' t).bind jsonLoadsL with
        | some v => some v
        | none =>
          (balancedSpan lbrace rbrace (replaceQuotes (stripTrailingCommas t))).bind jsonLoadsL

/-- First success among a list of extraction strategies. -/
def firstSome (t : List Char) : List (List Char → Option Json) → Option Json
  | [] => none
  | f :: fs =>
    match f t with
    | some v => some v
    | none => firstSome t fs

/-- The amended decoder description: the exact step pipeline of the
source — direct parse, fenced block, greedy first-`\x7b`-to-last-`\x7d`
span, greedy first-`[`-to-last-`]` span, lenient repair plus greedy
brace retry — guarded by the empty / `[LLM ERROR` early return. -/
def decodeAmended (response_text : String) : Option Json :=
  if response_text = "" || startsWithL "[LLM ERROR".toList response_text.toList then none
  else
    firstSome (pyStrip response_text.toList)
      [decodeDirect, decodeFenced, decodeBrace, decodeBracket, decodeRepair]

/-! ## Data model (`src/models.py`, `src/config.py`)

`BoundingBox` coordinates are Python floats; the orchestration logic
never computes with them, so they are modelled as rationals.  All other
integers are Python `int`, modelled as `Int` (counters that start at 0
and only increment are `Nat`). -/

structure BoundingBox where
  xmin : Rat
  ymin : Rat
  xmax : Rat
  ymax : Rat
  label : String
deriving DecidableEq

structure LabelPrediction where
  label : String
  confidence : Int
  reasoning : String
  bounding_boxes : List BoundingBox := []
deriving DecidableEq

structure CriticReview where
  is_correct : Bool
  confidence_score : Int
  critique : String
deriving DecidableEq

structure LabelingTask where
  data_id : String
  modality : String
  task_type : String
  text_content : String := ""
  image_path : String := ""
deriving DecidableEq

inductive FallbackReason where
  | RETRY_LIMIT : FallbackReason
  | LOW_CONFIDENCE : FallbackReason
  | PARSING_ERROR : FallbackReason
  | VALIDATION_ERROR : FallbackReason
deriving DecidableEq

def FallbackReason.value : FallbackReason → String
  | .RETRY_LIMIT => "RETRY_LIMIT"
  | .LOW_CONFIDENCE => "LOW_CONFIDENCE"
  | .PARSING_ERROR => "PARSING_ERROR"
  | .VALIDATION_ERROR => "VALIDATION_ERROR"

/-- The `input_data` dict built by `run_labeling_graph`. -/
structure InputData where
  text_content : String
  image_path : String
  modality : String
deriving DecidableEq

/-- The `validated_output` dict.  The success record built by
`validator_node`, the degraded record built by `fallback_node` and the
synthetic ERROR record of `run_labeling_graph` all share these keys;
only the fallback record carries the extra `fallback_reason` key,
modelled by the `Option` field. -/
structure OutRecord where
  data_id : String
  label : String
  confidence : Int
  reasoning : String
  critic_confidence : Int
  final_confidence : Int
  retry_count : Nat
  fallback_reason : Option String := none
deriving DecidableEq

structure HumanReviewItem where
  data_id : String
  original_input : InputData
  labeler_attempts : List LabelPrediction
  critic_reviews : List CriticReview
  error_log : List String
  fallback_reason : String
  timestamp : String
deriving DecidableEq

/-- The `LabelingState` TypedDict of `src/graph.py` (the `image_data`
key is written once as `None` and never read; it is omitted). -/
structure RunState where
  data_id : String
  input_data : InputData
  modality : String
  task_type : String
  labeler_output : Option LabelPrediction
  critic_review : Option CriticReview
  retry_count : Nat
  max_retries : Nat
  validated_output : Option OutRecord
  fallback_to_human : Bool
  error_log : List String
  labeler_attempts : List LabelPrediction
  critic_reviews : List CriticReview
deriving DecidableEq

/-- The `SystemConfig` of `src/config.py`, restricted to the fields the
orchestration reads.  The source reads the threshold through the
process-global `get_config()` singleton, which coincides with the
configuration used to build the initial state in every caller. -/
structure SystemConfig where
  max_retries : Nat := 3
  min_confidence_threshold : Int := 85
deriving DecidableEq

inductive Node where
  | labeler : Node
  | critic : Node
  | validator : Node
  | fallback : Node
  | endNode : Node
deriving DecidableEq

/-! ## The agent nodes (`src/agents.py`)

Each LLM round trip inside a node is `llm.invoke` followed by
`_safe_parse_json` and a Pydantic validation; only its outcome can
influence the state.  `AttemptOutcome` enumerates the possibilities:
a validated object, a silent decode failure (`_safe_parse_json`
returned `None` or a falsy dict — the loop just continues, nothing is
logged), or a raised exception whose text is appended to the error
log.  `Env` supplies one outcome pair (the at most two local attempts)
per node invocation, plus the review-queue write result and the
timestamp used by the fallback node. -/

inductive AttemptOutcome (α : Type) where
  | ok (val : α) : AttemptOutcome α
  | noParse : AttemptOutcome α
  | err (msg : String) : AttemptOutcome α
deriving DecidableEq

structure Env where
  labelerOut : Nat → AttemptOutcome LabelPrediction × AttemptOutcome LabelPrediction
  criticOut : Nat → AttemptOutcome CriticReview × AttemptOutcome CriticReview
  writeOk : Bool
  timestamp : String

def attemptMsg (tag : String) (n : Nat) (msg : String) : String :=
  tag ++ " attempt " ++ toString n ++ " failed: " ++ msg

/-- The `for attempt in range(2)` loop shared by labeler and critic:
stop at the first validated object; a raised attempt logs a message;
the second outcome is consulted only if the first produced nothing. -/
def runTwoAttempts {α : Type} (tag : String) (o1 o2 : AttemptOutcome α)
    (log : List String) : Option α × List String :=
  match o1 with
  | .ok v => (some v, log)
  | .noParse => second log
  | .err m => second (log ++ [attemptMsg tag 1 m])
where
  second (log2 : List String) : Option α × List String :=
    match o2 with
    | .ok v => (some v, log2)
    | .noParse => (none, log2)
    | .err m => (none, log2 ++ [attemptMsg tag 2 m])

/-- The stub written to `labeler_output` when both local attempts fail. -/
def parseStubPrediction : LabelPrediction :=
  { label := "UNKNOWN", confidence := 0, reasoning := "Parse error", bounding_boxes := [] }

/-- Embedding of `labeler_node`: on decode failure of both local attempts, log and
go to the fallback node with the stub output (note: the failed attempt
is *not* appended to `labeler_attempts`); on success, append the
prediction to the attempt history and go to the critic. -/
def labeler_node (outs : AttemptOutcome LabelPrediction × AttemptOutcome LabelPrediction)
    (s : RunState) : Node × RunState :=
  let (res, log) := runTwoAttempts "Labeler" outs.1 outs.2 s.error_log
  match res with
  | none =>
    (.fallback,
      { s with fallback_to_human := true,
               error_log := log ++ ["Labeler: all attempts failed, sending to fallback"],
               labeler_output := some parseStubPrediction })
  | some pred =>
    (.critic,
      { s with labeler_output := some pred,
               labeler_attempts := s.labeler_attempts ++ [pred],
               error_log := log })

/-- The review substituted when the critic decodes nothing. -/
def criticDefault : CriticReview :=
  { is_correct := true, confidence_score := 70,
    critique := "Critic parse error - accepting label" }

/-- Embedding of `critic_node`: decode-failure defaults to accepting; accept goes to
the validator; reject re-labels while `retry_count < max_retries`
(incrementing the counter), otherwise logs and goes to fallback. -/
def critic_node (outs : AttemptOutcome CriticReview × AttemptOutcome CriticReview)
    (s : RunState) : Node × RunState :=
  let (res, log) := runTwoAttempts "Critic" outs.1 outs.2 s.error_log
  let review := res.getD criticDefault
  let reviews := s.critic_reviews ++ [review]
  if review.is_correct then
    (.validator,
      { s with critic_review := some review, critic_reviews := reviews, error_log := log })
  else if s.retry_count < s.max_retries then
    (.labeler,
      { s with critic_review := some review, critic_reviews := reviews,
               retry_count := s.retry_count + 1, error_log := log })
  else
    (.fallback,
      { s with critic_review := some review, critic_reviews := reviews,
               fallback_to_human := true,
               error_log := log ++ ["Critic: max retries reached, sending to fallback"] })

def validatorMsg (final thr : Int) : String :=
  "Validator: confidence " ++ toString final ++ " below threshold " ++ toString thr

/-- Embedding of `validator_node`: average the two confidences with floor division;
below the threshold go to fallback, otherwise build the success record
and end the run.  The source indexes `state["labeler_output"]` /
`state["critic_review"]` and calls `.get` on the values; a stored
`None` would raise `AttributeError` (modelled by `none`), though every
path into the validator has set both. -/
def validator_node (cfg : SystemConfig) (s : RunState) : Option (Node × RunState) :=
  match s.labeler_output, s.critic_review with
  | some p, some r =>
    let final := Int.fdiv (p.confidence + r.confidence_score) 2
    if final < cfg.min_confidence_threshold then
      some (.fallback,
        { s with fallback_to_human := true,
                 error_log := s.error_log ++ [validatorMsg final cfg.min_confidence_threshold] })
    else
      let v : OutRecord :=
        { data_id := s.data_id, label := p.label, confidence := p.confidence,
          reasoning := p.reasoning, critic_confidence := r.confidence_score,
          final_confidence := final, retry_count := s.retry_count,
          fallback_reason := none }
      some (.endNode, { s with validated_output := some v, fallback_to_human := false })
  | _, _ => none

/-- The `repr`-rendering of the error log, as `str(error_log)` produces it
for the substring checks of `fallback_node` (quote escaping inside
messages is not modelled; no message the pipeline writes contains a
quote). -/
def renderLogInner : List String → List Char
  | [] => []
  | [m] => squote :: m.toList ++ [squote]
  | m :: rest => (squote :: m.toList ++ [squote]) ++ ", ".toList ++ renderLogInner rest

def renderLog (l : List String) : List Char := '[' :: renderLogInner l ++ [']']

/-- The reason inference of `fallback_node`: retry budget first, then
substring checks over `str(error_log)`, then the legacy default. -/
def determineReason (s : RunState) : FallbackReason :=
  if s.max_retries ≤ s.retry_count then .RETRY_LIMIT
  else if hasSub "confidence".toList (renderLog s.error_log) then .LOW_CONFIDENCE
  else if hasSub "Parse error".toList (renderLog s.error_log) then .PARSING_ERROR
  else .VALIDATION_ERROR

/-- Python's message for calling `.get` on `None`. -/
def noneGetMsg : String :=
  "\x27NoneType\x27 object has no attribute \x27get\x27"

structure FallbackResult where
  /-- The `HumanReviewItem` is constructed before anything can fail. -/
  item : HumanReviewItem
  /-- Whether the best-effort write persisted it (a raising write is
  caught by the bare `except`). -/
  persisted : Bool
  /-- The node's returned command, or `none` when building the
  degraded record raises: the source calls
  `state.get("labeler_output", \x7b\x7d).get(...)` — `dict.get`
  returns the stored `None` (the key is present), and `.get` on `None`
  raises `AttributeError` *after* the review item was written. -/
  outcome : Option (Node × RunState)

/-- Embedding of `fallback_node`: build the review item from the full histories,
attempt the durable write, then return the degraded terminal record. -/
def fallback_node (writeOk : Bool) (ts : String) (s : RunState) : FallbackResult :=
  let reason := determineReason s
  let item : HumanReviewItem :=
    { data_id := s.data_id, original_input := s.input_data,
      labeler_attempts := s.labeler_attempts, critic_reviews := s.critic_reviews,
      error_log := s.error_log, fallback_reason := reason.value,
      timestamp := ts }
  match s.labeler_output, s.critic_review with
  | some p, some r =>
    let v : OutRecord :=
      { data_id := s.data_id, label := p.label, confidence := p.confidence,
        reasoning := "Sent to human review",
        critic_confidence := r.confidence_score,
        final_confidence := 0, retry_count := s.retry_count,
        fallback_reason := some reason.value }
    { item := item, persisted := writeOk,
      outcome := some (.endNode, { s with validated_output := some v }) }
  | _, _ => { item := item, persisted := writeOk, outcome := none }

/-! ## Graph execution (`src/graph.py`) -/

inductive RunOutcome where
  | finished (s : RunState) : RunOutcome
  | raised (msg : String) : RunOutcome
  | outOfFuel : RunOutcome
deriving DecidableEq

/-- One compiled-graph execution from node `n`: follow each node's
`Command` until `__end__`, threading the environment's invocation
counters (`ln` labeler calls, `cn` critic calls) and collecting the
review-queue writes that persisted.  The graph always terminates —
every cycle back to the labeler strictly increases `retry_count`,
which is capped — so the fuel is only a modelling artifact; claims are
stated for every sufficient fuel. -/
def stepRun (cfg : SystemConfig) (env : Env) :
    Nat → Node → RunState → Nat → Nat → RunOutcome × List HumanReviewItem
  | 0, _, _, _, _ => (.outOfFuel, [])
  | Nat.succ f, n, s, ln, cn =>
    match n with
    | .endNode => (.finished s, [])
    | .labeler =>
      let (n2, s2) := labeler_node (env.labelerOut ln) s
      stepRun cfg env f n2 s2 (ln + 1) cn
    | .critic =>
      let (n2, s2) := critic_node (env.criticOut cn) s
      stepRun cfg env f n2 s2 ln (cn + 1)
    | .validator =>
      match validator_node cfg s with
      | some (n2, s2) => stepRun cfg env f n2 s2 ln cn
      | none => (.raised noneGetMsg, [])
    | .fallback =>
      let r := fallback_node env.writeOk env.timestamp s
      let w := if r.persisted then [r.item] else []
      match r.outcome with
      | some (n2, s2) =>
        let (o, w2) := stepRun cfg env f n2 s2 ln cn
        (o, w ++ w2)
      | none => (.raised noneGetMsg, w)

/-- The sequence of `(node, state)` pairs at each node entry of the
same execution (ending with the `__end__` snapshot when the run
completes). -/
def traceRun (cfg : SystemConfig) (env : Env) :
    Nat → Node → RunState → Nat → Nat → List (Node × RunState)
  | 0, _, _, _, _ => []
  | Nat.succ f, n, s, ln, cn =>
    (n, s) ::
      match n with
      | .endNode => []
      | .labeler =>
        let (n2, s2) := labeler_node (env.labelerOut ln) s
        traceRun cfg env f n2 s2 (ln + 1) cn
      | .critic =>
        let (n2, s2) := critic_node (env.criticOut cn) s
        traceRun cfg env f n2 s2 ln (cn + 1)
      | .validator =>
        match validator_node cfg s with
        | some (n2, s2) => traceRun cfg env f n2 s2 ln cn
        | none => []
      | .fallback =>
        match (fallback_node env.writeOk env.timestamp s).outcome with
        | some (n2, s2) => traceRun cfg env f n2 s2 ln cn
        | none => []

/-- The initial `LabelingState` dict of `run_labeling_graph`. -/
def initState (task : LabelingTask) (cfg : SystemConfig) : RunState :=
  { data_id := task.data_id,
    input_data :=
      { text_content := task.text_content, image_path := task.image_path,
        modality := task.modality },
    modality := task.modality, task_type := task.task_type,
    labeler_output := none, critic_review := none,
    retry_count := 0, max_retries := cfg.max_retries,
    validated_output := none, fallback_to_human := false,
    error_log := [], labeler_attempts := [], critic_reviews := [] }

/-- The synthetic record returned when `graph.invoke` raises. -/
def errRecord (dataId reasonTxt : String) : OutRecord :=
  { data_id := dataId, label := "ERROR", confidence := 0, reasoning := reasonTxt,
    critic_confidence := 0, final_confidence := 0, retry_count := 0,
    fallback_reason := none }

/-- Embedding of `run_labeling_graph`: run the graph from the labeler entry point on
the initial state; on an exception return the synthetic ERROR record.
In the finished case the source executes
`final_state.get("validated_output", \x7b..."Graph execution failed"...\x7d)`;
the key is always present (it is part of the initial state), so the
literal default dict is dead code and a stored `None` would be returned
as-is — modelled by returning the `Option` field directly.  The second
component collects the review-queue writes that persisted during the
run. -/
def run_labeling_graph (fuel : Nat) (env : Env) (task : LabelingTask)
    (cfg : SystemConfig) : Option OutRecord × List HumanReviewItem :=
  match stepRun cfg env fuel .labeler (initState task cfg) 0 0 with
  | (.finished s, w) => (s.validated_output, w)
  | (.raised m, w) => (some (errRecord task.data_id ("Graph error: " ++ m)), w)
  | (.outOfFuel, w) => (none, w)

/-! ## Review-queue store (`src/fallback.py`)

The store is a directory of JSON files; we model the directory as the
list of file names, which is all `delete_review_item` inspects. -/

/-- The file name chosen by `write_to_review_queue`:
`data_id` + `_` + timestamp + `.json`. -/
def reviewFileName (dataId ts : String) : String :=
  dataId ++ "_" ++ ts ++ ".json"

/-- Embedding of `write_to_review_queue`: adds one uniquely named file. -/
def write_to_review_queue (item : HumanReviewItem) (ts : String)
    (files : List String) : List String :=
  files ++ [reviewFileName item.data_id ts]

/-- Python `s.startswith(pre)`. -/
def pyStartsWith (pre s : String) : Bool := startsWithL pre.toList s.toList

/-- Python `s.endswith(suf)`. -/
def pyEndsWith (suf s : String) : Bool :=
  startsWithL suf.toList.reverse s.toList.reverse

/-- Embedding of `delete_review_item`: removes every file whose *name starts with*
`data_id` (and ends in `.json`) — a prefix match, not an exact
`data_id` match. -/
def delete_review_item (dataId : String) (files : List String) : List String :=
  files.filter (fun f => !(pyStartsWith dataId f && pyEndsWith ".json" f))

/-! ## Concrete fixtures

Closed inputs used by the counterexamples, the code-bug evaluations and
the witnesses. -/

def taskX : LabelingTask :=
  { data_id := "t1", modality := "TEXT", task_type := "SENTIMENT", text_content := "hello" }

def cfgX : SystemConfig := {}

def predC (c : Int) : LabelPrediction := { label := "POS", confidence := c, reasoning := "r" }

def revOf (ok : Bool) (c : Int) : CriticReview :=
  { is_correct := ok, confidence_score := c, critique := "crit" }

/-- Both local decode attempts of every labeler invocation fail
silently (unparseable gateway text); the critic would accept. -/
def envParseFail (w : Bool) : Env :=
  { labelerOut := fun _ => (.noParse, .noParse),
    criticOut := fun _ => (.ok (revOf true 90), .noParse),
    writeOk := w, timestamp := "TS" }

/-- Labeling always succeeds; the critic rejects every attempt. -/
def envAlwaysReject : Env :=
  { labelerOut := fun n => (.ok (predC (80 + n)), .noParse),
    criticOut := fun _ => (.ok (revOf false 50), .noParse),
    writeOk := true, timestamp := "TS" }

/-- Labeler confidence 90; the critic accepts with confidence 60 on the
first pass (the spec's LOW_CONFIDENCE scenario). -/
def envLowConf : Env :=
  { labelerOut := fun _ => (.ok (predC 90), .noParse),
    criticOut := fun _ => (.ok (revOf true 60), .noParse),
    writeOk := true, timestamp := "TS" }

/-- The critic rejects three times, then accepts with confidence 60:
the validator computes 75 < 85 with the retry budget exhausted. -/
def envRejectThenLow : Env :=
  { labelerOut := fun _ => (.ok (predC 90), .noParse),
    criticOut := fun n => (if n < 3 then .ok (revOf false 50) else .ok (revOf true 60), .noParse),
    writeOk := true, timestamp := "TS" }

/-- A clean success: labeler 90, critic accepts with 95. -/
def envHappy : Env :=
  { labelerOut := fun _ => (.ok (predC 90), .noParse),
    criticOut := fun _ => (.ok (revOf true 95), .noParse),
    writeOk := true, timestamp := "TS" }

/-- A review item of a task whose `data_id` is the two-character string
`10`. -/
def item10 : HumanReviewItem :=
  { data_id := "10", original_input := { text_content := "x", image_path := "", modality := "TEXT" },
    labeler_attempts := [], critic_reviews := [], error_log := [],
    fallback_reason := "RETRY_LIMIT", timestamp := "T" }

/-- The input refuting the balanced-span reading of the decoder: a JSON
object followed by a stray closing brace. -/
def strayBraceInput : String := "\x7b\"a\": 1\x7d \x7d"

/-- A state entering the Validating stage in the spec's LOW_CONFIDENCE
scenario: labeler confidence 90, critic accepted with 60, no retries
used, default configuration. -/
def sValLow : RunState :=
  { initState taskX cfgX with
    labeler_output := some (predC 90),
    critic_review := some (revOf true 60),
    labeler_attempts := [predC 90],
    critic_reviews := [revOf true 60] }

/-- A state entering the Fallback stage after a rejection at the retry
limit. -/
def sFallEx : RunState :=
  { initState taskX cfgX with
    labeler_output := some (predC 90),
    critic_review := some (revOf false 50),
    retry_count := 3,
    labeler_attempts := [predC 90],
    critic_reviews := [revOf false 50],
    fallback_to_human := true }

/-- The state delta of a successful labeling (`labeler_node`'s success
command). -/
def afterLab (s : RunState) (p : LabelPrediction) : RunState :=
  { s with labeler_output := some p, labeler_attempts := s.labeler_attempts ++ [p] }

/-- The state delta of a critique rejection within the retry budget. -/
def afterRej (s : RunState) (r : CriticReview) : RunState :=
  { s with critic_review := some r, critic_reviews := s.critic_reviews ++ [r],
           retry_count := s.retry_count + 1 }

/-- The state delta of a critique rejection at the retry budget. -/
def afterRejLimit (s : RunState) (r : CriticReview) : RunState :=
  { s with critic_review := some r, critic_reviews := s.critic_reviews ++ [r],
           fallback_to_human := true,
           error_log := s.error_log ++ ["Critic: max retries reached, sending to fallback"] }

/-! ## Predicates used by the claims -/

/-- A labeler confidence in `[0, 100]`. -/
def PredBounded (p : LabelPrediction) : Prop := 0 ≤ p.confidence ∧ p.confidence ≤ 100

/-- A critic confidence in `[0, 100]`. -/
def RevBounded (r : CriticReview) : Prop :=
  0 ≤ r.confidence_score ∧ r.confidence_score ≤ 100

/-- Every object the environment can hand to a node has its confidence
in `[0, 100]`. -/
def EnvBounded (env : Env) : Prop :=
  ∀ n,
    (∀ p, (env.labelerOut n).1 = .ok p ∨ (env.labelerOut n).2 = .ok p → PredBounded p) ∧
    (∀ r, (env.criticOut n).1 = .ok r ∨ (env.criticOut n).2 = .ok r → RevBounded r)

/-- A `validated_output` record without `fallback_reason` (the shape
built only by the validator's success branch, or the synthetic ERROR
record) satisfies the confidence-aggregation contract. -/
def GoodRec (v : OutRecord) : Prop :=
  v.fallback_reason = none →
    v.final_confidence = Int.fdiv (v.confidence + v.critic_confidence) 2 ∧
    0 ≤ v.final_confidence ∧ v.final_confidence ≤ 100

/-- The run-state invariant carrying `GoodRec` through the graph. -/
def GoodState (s : RunState) : Prop :=
  (∀ p, s.labeler_output = some p → PredBounded p) ∧
  (∀ r, s.critic_review = some r → RevBounded r) ∧
  (∀ v, s.validated_output = some v → GoodRec v)

/-- Claim C3's attempt-list invariant, literally: in any state reached
after the Labeling stage has run at least once, the attempt list has
length `retry_count + 1`. -/
def ClaimAttemptInv (tr : List (Node × RunState)) : Prop :=
  ∀ i p, tr.get? i = some p →
    (∃ j q, j < i ∧ tr.get? j = some q ∧ q.1 = Node.labeler) →
    p.2.labeler_attempts.length = p.2.retry_count + 1

/-- The single-step relation realised by `traceRun`: some node, fed by
some environment response, produced the successor snapshot. -/
def StepRel (cfg : SystemConfig) (env : Env) (p q : Node × RunState) : Prop :=
  (∃ o, p.1 = Node.labeler ∧ labeler_node o p.2 = q) ∨
  (∃ o, p.1 = Node.critic ∧ critic_node o p.2 = q) ∨
  (p.1 = Node.validator ∧ validator_node cfg p.2 = some q) ∨
  (p.1 = Node.fallback ∧ (fallback_node env.writeOk env.timestamp p.2).outcome = some q)

/-! ## Helper lemmas about the nodes -/

theorem runTwoAttempts_some {α : Type} (tag : String) (o1 o2 : AttemptOutcome α)
    (log : List String) (v : α) :
    (runTwoAttempts tag o1 o2 log).1 = some v → o1 = .ok v ∨ o2 = .ok v := by
  cases o1 <;> cases o2 <;>
    simp [runTwoAttempts, runTwoAttempts.second] <;> intro h <;> simp [h]

/-- The node `labeler_node` either escalates with the stub (appending nothing to
the attempt history) or moves to the critic appending exactly the
decoded prediction; `retry_count` and `max_retries` are untouched. -/
theorem labeler_node_spec (o : AttemptOutcome LabelPrediction × AttemptOutcome LabelPrediction)
    (s : RunState) :
    (∃ log, labeler_node o s =
      (Node.fallback,
        { s with fallback_to_human := true, error_log := log,
                 labeler_output := some parseStubPrediction })) ∨
    (∃ p log, (o.1 = .ok p ∨ o.2 = .ok p) ∧ labeler_node o s =
      (Node.critic,
        { s with labeler_output := some p,
                 labeler_attempts := s.labeler_attempts ++ [p], error_log := log })) := by
  unfold labeler_node
  rcases h : runTwoAttempts "Labeler" o.1 o.2 s.error_log with ⟨res, log⟩
  cases res with
  | none => exact Or.inl ⟨log ++ ["Labeler: all attempts failed, sending to fallback"], rfl⟩
  | some p =>
    refine Or.inr ⟨p, log, ?_, rfl⟩
    have := runTwoAttempts_some "Labeler" o.1 o.2 s.error_log p
    rw [h] at this
    exact this rfl

/-- The node `critic_node` either accepts (to the validator, counter untouched),
rejects within budget (to the labeler, counter incremented by exactly
one) or rejects at the budget (to fallback, counter untouched); the
review — decoded or the accept-by-default stub — is appended. -/
theorem critic_node_spec (o : AttemptOutcome CriticReview × AttemptOutcome CriticReview)
    (s : RunState) :
    ∃ r log,
      (o.1 = AttemptOutcome.ok r ∨ o.2 = AttemptOutcome.ok r ∨ r = criticDefault) ∧
      ((critic_node o s =
        (Node.validator,
          { s with critic_review := some r,
                   critic_reviews := s.critic_reviews ++ [r], error_log := log }) ∧
        r.is_correct = true) ∨
      (critic_node o s =
        (Node.labeler,
          { s with critic_review := some r,
                   critic_reviews := s.critic_reviews ++ [r],
                   retry_count := s.retry_count + 1, error_log := log }) ∧
        r.is_correct = false ∧ s.retry_count < s.max_retries) ∨
      (critic_node o s =
        (Node.fallback,
          { s with critic_review := some r,
                   critic_reviews := s.critic_reviews ++ [r],
                   fallback_to_human := true, error_log := log }) ∧
        r.is_correct = false ∧ ¬ s.retry_count < s.max_retries)) := by
  have hprov : ∀ res log, runTwoAttempts "Critic" o.1 o.2 s.error_log = (res, log) →
      o.1 = AttemptOutcome.ok (res.getD criticDefault) ∨
      o.2 = AttemptOutcome.ok (res.getD criticDefault) ∨
      res.getD criticDefault = criticDefault := by
    intro res log hres
    cases res with
    | none => exact Or.inr (Or.inr rfl)
    | some r2 =>
      have hsome := runTwoAttempts_some "Critic" o.1 o.2 s.error_log r2
      rw [hres] at hsome
      rcases hsome rfl with h1 | h2
      · exact Or.inl h1
      · exact Or.inr (Or.inl h2)
  unfold critic_node
  rcases h : runTwoAttempts "Critic" o.1 o.2 s.error_log with ⟨res, log⟩
  by_cases hc : (res.getD criticDefault).is_correct
  · exact ⟨res.getD criticDefault, log, hprov res log h, Or.inl ⟨by simp [hc], hc⟩⟩
  · by_cases hrc : s.retry_count < s.max_retries
    · exact ⟨res.getD criticDefault, log, hprov res log h,
        Or.inr (Or.inl ⟨by simp [hc, hrc], by simp [hc], hrc⟩)⟩
    · exact ⟨res.getD criticDefault,
        log ++ ["Critic: max retries reached, sending to fallback"], hprov res log h,
        Or.inr (Or.inr ⟨by simp [hc, hrc], by simp [hc], hrc⟩)⟩

theorem startsWithL_extend (n : List Char) :
    ∀ u v, startsWithL n u = true → startsWithL n (u ++ v) = true := by
  induction n with
  | nil => intro u v _; rfl
  | cons a as ih =>
    intro u v h
    cases u with
    | nil => exact absurd h (by simp [startsWithL])
    | cons b bs =>
      simp only [startsWithL, Bool.and_eq_true, decide_eq_true_eq] at h
      simp only [List.cons_append, startsWithL, Bool.and_eq_true, decide_eq_true_eq]
      exact ⟨h.1, ih bs v h.2⟩

theorem hasSub_here (n h : List Char) (hs : startsWithL n h = true) :
    hasSub n h = true := by
  cases h with
  | nil => simpa [hasSub] using hs
  | cons c rest => simp [hasSub, hs]

theorem hasSub_cons (n t : List Char) (c : Char) (h : hasSub n t = true) :
    hasSub n (c :: t) = true := by
  simp [hasSub, h]

theorem hasSub_append_right (n b : List Char) (h : hasSub n b = true) :
    ∀ a, hasSub n (a ++ b) = true := by
  intro a
  induction a with
  | nil => simpa using h
  | cons c rest ih => exact hasSub_cons n (rest ++ b) c ih

theorem hasSub_append_left (n : List Char) :
    ∀ a b, hasSub n a = true → hasSub n (a ++ b) = true := by
  intro a
  induction a with
  | nil =>
    intro b h
    simp only [hasSub] at h
    exact hasSub_here n b (startsWithL_extend n [] b h)
  | cons c rest ih =>
    intro b h
    simp only [hasSub, Bool.or_eq_true] at h
    rcases h with h | h
    · exact hasSub_here n ((c :: rest) ++ b) (startsWithL_extend n (c :: rest) b h)
    · exact hasSub_cons n (rest ++ b) c (ih b h)

theorem hasSub_renderLogInner_mem (n : List Char) (m : String) :
    ∀ l : List String, m ∈ l → hasSub n m.toList = true →
      hasSub n (renderLogInner l) = true := by
  intro l
  induction l with
  | nil => intro h; exact absurd h (List.not_mem_nil m)
  | cons m2 rest ih =>
    intro hmem hsub
    cases rest with
    | nil =>
      have hm : m = m2 := by simpa using hmem
      subst hm
      simp only [renderLogInner]
      exact hasSub_cons _ _ _ (hasSub_append_left n m.toList [squote] hsub)
    | cons m3 rest2 =>
      rcases List.mem_cons.mp hmem with hm | hm
      · subst hm
        simp only [renderLogInner, List.cons_append, List.append_assoc]
        exact hasSub_cons _ _ _ (hasSub_append_left n m.toList _ hsub)
      · simp only [renderLogInner, List.cons_append, List.append_assoc, List.nil_append]
        exact hasSub_cons _ _ _
          (hasSub_append_right n _
            (hasSub_cons _ _ _ (hasSub_append_right n _ (ih hm hsub) _)) _)

theorem hasSub_renderLog_mem (n : List Char) (m : String) (l : List String)
    (hmem : m ∈ l) (hsub : hasSub n m.toList = true) :
    hasSub n (renderLog l) = true := by
  unfold renderLog
  exact hasSub_cons _ _ _
    (hasSub_append_left n (renderLogInner l) [']'] (hasSub_renderLogInner_mem n m l hmem hsub))

theorem strToList_append (a b : String) : (a ++ b).toList = a.toList ++ b.toList := rfl

/-- The validator's low-confidence log line contains the word
`confidence`, which is what the fallback's reason inference greps for. -/
theorem validatorMsg_has_confidence (f t : Int) :
    hasSub "confidence".toList (validatorMsg f t).toList = true := by
  unfold validatorMsg
  rw [strToList_append, strToList_append, strToList_append]
  exact hasSub_append_left _ _ _
    (hasSub_append_left _ _ _ (hasSub_append_left _ _ _ (by decide)))

theorem determineReason_retry (s : RunState) (h : s.max_retries ≤ s.retry_count) :
    determineReason s = .RETRY_LIMIT := by
  simp [determineReason, h]

theorem determineReason_low (s : RunState) (h1 : ¬ s.max_retries ≤ s.retry_count)
    (h2 : hasSub "confidence".toList (renderLog s.error_log) = true) :
    determineReason s = .LOW_CONFIDENCE := by
  unfold determineReason
  rw [if_neg h1, if_pos h2]

/-- The validator's escalating branch. -/
theorem validator_node_low (cfg : SystemConfig) (s : RunState)
    (p : LabelPrediction) (r : CriticReview)
    (hp : s.labeler_output = some p) (hr : s.critic_review = some r)
    (hlow : Int.fdiv (p.confidence + r.confidence_score) 2 < cfg.min_confidence_threshold) :
    validator_node cfg s = some (Node.fallback,
      { s with fallback_to_human := true,
               error_log := s.error_log ++
                 [validatorMsg (Int.fdiv (p.confidence + r.confidence_score) 2)
                    cfg.min_confidence_threshold] }) := by
  simp [validator_node, hp, hr, hlow]

/-- The validator's success branch. -/
theorem validator_node_ok (cfg : SystemConfig) (s : RunState)
    (p : LabelPrediction) (r : CriticReview)
    (hp : s.labeler_output = some p) (hr : s.critic_review = some r)
    (hok : ¬ Int.fdiv (p.confidence + r.confidence_score) 2 < cfg.min_confidence_threshold) :
    validator_node cfg s = some (Node.endNode,
      { s with
        validated_output := some (OutRecord.mk s.data_id p.label p.confidence
          p.reasoning r.confidence_score
          (Int.fdiv (p.confidence + r.confidence_score) 2) s.retry_count none),
        fallback_to_human := false }) := by
  simp [validator_node, hp, hr, hok]

/-- The review item is built identically whether or not anything else
in the fallback node succeeds. -/
theorem fallback_node_item (wOk : Bool) (ts : String) (s : RunState) :
    (fallback_node wOk ts s).item =
      { data_id := s.data_id, original_input := s.input_data,
        labeler_attempts := s.labeler_attempts, critic_reviews := s.critic_reviews,
        error_log := s.error_log, fallback_reason := (determineReason s).value,
        timestamp := ts } := by
  unfold fallback_node
  cases s.labeler_output <;> cases s.critic_review <;> rfl

theorem fallback_node_persisted (wOk : Bool) (ts : String) (s : RunState) :
    (fallback_node wOk ts s).persisted = wOk := by
  unfold fallback_node
  cases s.labeler_output <;> cases s.critic_review <;> rfl

/-- The degraded record returned by a fallback that does not raise. -/
theorem fallback_node_outcome (wOk : Bool) (ts : String) (s : RunState)
    (p : LabelPrediction) (r : CriticReview)
    (hp : s.labeler_output = some p) (hr : s.critic_review = some r) :
    (fallback_node wOk ts s).outcome = some (Node.endNode,
      { s with
        validated_output := some (OutRecord.mk s.data_id p.label p.confidence
          "Sent to human review" r.confidence_score 0 s.retry_count
          (some (determineReason s).value)) }) := by
  simp [fallback_node, hp, hr]

/-- The fallback node's command never depends on whether the queue
write succeeded: the bare `except` swallows the failure. -/
theorem fallback_node_write_independent (ts : String) (s : RunState) :
    (fallback_node true ts s).outcome = (fallback_node false ts s).outcome := by
  unfold fallback_node
  cases s.labeler_output <;> cases s.critic_review <;> rfl

/-! ## Generic invariant and successor lemmas for graph executions -/

theorem traceRun_head (cfg : SystemConfig) (env : Env) (f : Nat) (n : Node)
    (s : RunState) (ln cn : Nat) (q : Node × RunState)
    (h : (traceRun cfg env f n s ln cn).get? 0 = some q) : q = (n, s) := by
  cases f with
  | zero => simp [traceRun] at h
  | succ f =>
    have : (traceRun cfg env (Nat.succ f) n s ln cn).get? 0 = some (n, s) := by
      simp [traceRun]
    rw [this] at h
    exact (Option.some.inj h).symm

/-- Any property preserved by every node transition holds at every
snapshot of every execution trace. -/
theorem traceRun_inv (cfg : SystemConfig) (env : Env) (I : Node × RunState → Prop)
    (hLab : ∀ ln s, I (Node.labeler, s) → I (labeler_node (env.labelerOut ln) s))
    (hCri : ∀ cn s, I (Node.critic, s) → I (critic_node (env.criticOut cn) s))
    (hVal : ∀ s q, I (Node.validator, s) → validator_node cfg s = some q → I q)
    (hFal : ∀ s q, I (Node.fallback, s) →
      (fallback_node env.writeOk env.timestamp s).outcome = some q → I q) :
    ∀ f n s ln cn, I (n, s) → ∀ p ∈ traceRun cfg env f n s ln cn, I p := by
  intro f
  induction f with
  | zero => intro n s ln cn _ p hp; simp [traceRun] at hp
  | succ f ih =>
    intro n s ln cn hI p hp
    cases n with
    | endNode =>
      simp only [traceRun, List.mem_cons, List.not_mem_nil, or_false] at hp
      exact hp ▸ hI
    | labeler =>
      simp only [traceRun, List.mem_cons] at hp
      rcases hp with rfl | hp
      · exact hI
      · rcases hq : labeler_node (env.labelerOut ln) s with ⟨n2, s2⟩
        rw [hq] at hp
        exact ih n2 s2 (ln + 1) cn (hq ▸ hLab ln s hI) p hp
    | critic =>
      simp only [traceRun, List.mem_cons] at hp
      rcases hp with rfl | hp
      · exact hI
      · rcases hq : critic_node (env.criticOut cn) s with ⟨n2, s2⟩
        rw [hq] at hp
        exact ih n2 s2 ln (cn + 1) (hq ▸ hCri cn s hI) p hp
    | validator =>
      simp only [traceRun, List.mem_cons] at hp
      rcases hp with rfl | hp
      · exact hI
      · cases hv : validator_node cfg s with
        | none => rw [hv] at hp; simp at hp
        | some q2 =>
          rw [hv] at hp
          exact ih q2.1 q2.2 ln cn (hVal s q2 hI hv) p hp
    | fallback =>
      simp only [traceRun, List.mem_cons] at hp
      rcases hp with rfl | hp
      · exact hI
      · cases hv : (fallback_node env.writeOk env.timestamp s).outcome with
        | none => rw [hv] at hp; simp at hp
        | some q2 =>
          rw [hv] at hp
          exact ih q2.1 q2.2 ln cn (hFal s q2 hI hv) p hp

/-- Any property preserved by every node transition holds at the final
state of a finished execution. -/
theorem stepRun_finished_inv (cfg : SystemConfig) (env : Env)
    (I : Node × RunState → Prop)
    (hLab : ∀ ln s, I (Node.labeler, s) → I (labeler_node (env.labelerOut ln) s))
    (hCri : ∀ cn s, I (Node.critic, s) → I (critic_node (env.criticOut cn) s))
    (hVal : ∀ s q, I (Node.validator, s) → validator_node cfg s = some q → I q)
    (hFal : ∀ s q, I (Node.fallback, s) →
      (fallback_node env.writeOk env.timestamp s).outcome = some q → I q) :
    ∀ f n s ln cn s2 w, I (n, s) →
      stepRun cfg env f n s ln cn = (RunOutcome.finished s2, w) → I (Node.endNode, s2) := by
  intro f
  induction f with
  | zero => intro n s ln cn s2 w _ h; simp [stepRun] at h
  | succ f ih =>
    intro n s ln cn s2 w hI h
    cases n with
    | endNode =>
      simp only [stepRun, Prod.mk.injEq] at h
      exact (RunOutcome.finished.inj h.1) ▸ hI
    | labeler =>
      rcases hq : labeler_node (env.labelerOut ln) s with ⟨n2, s2b⟩
      rw [stepRun, hq] at h
      exact ih n2 s2b (ln + 1) cn s2 w (hq ▸ hLab ln s hI) h
    | critic =>
      rcases hq : critic_node (env.criticOut cn) s with ⟨n2, s2b⟩
      rw [stepRun, hq] at h
      exact ih n2 s2b ln (cn + 1) s2 w (hq ▸ hCri cn s hI) h
    | validator =>
      cases hv : validator_node cfg s with
      | none => rw [stepRun, hv] at h; simp at h
      | some q2 =>
        rw [stepRun, hv] at h
        exact ih q2.1 q2.2 ln cn s2 w (hVal s q2 hI hv) h
    | fallback =>
      cases hv : (fallback_node env.writeOk env.timestamp s).outcome with
      | none => rw [stepRun] at h; rw [hv] at h; simp at h
      | some q2 =>
        rcases q2 with ⟨n2, s2b⟩
        rw [stepRun] at h; rw [hv] at h
        rcases hrec : stepRun cfg env f n2 s2b ln cn with ⟨o, w2⟩
        simp only [hrec, Prod.mk.injEq] at h
        exact ih n2 s2b ln cn s2 w2 (hFal s (n2, s2b) hI hv) (by rw [hrec, h.1])

/-- Consecutive snapshots of a trace are related by one node step. -/
theorem traceRun_succ (cfg : SystemConfig) (env : Env) :
    ∀ f n s ln cn i p q,
      (traceRun cfg env f n s ln cn).get? i = some p →
      (traceRun cfg env f n s ln cn).get? (i + 1) = some q →
      StepRel cfg env p q := by
  intro f
  induction f with
  | zero => intro n s ln cn i p q hp _; simp [traceRun] at hp
  | succ f ih =>
    intro n s ln cn i p q hp hq
    cases i with
    | zero =>
      have hps : p = (n, s) := traceRun_head cfg env (Nat.succ f) n s ln cn p hp
      subst hps
      cases n with
      | endNode => simp [traceRun] at hq
      | labeler =>
        rcases hl : labeler_node (env.labelerOut ln) s with ⟨n2, s2⟩
        have hq2 : (traceRun cfg env f n2 s2 (ln + 1) cn).get? 0 = some q := by
          simpa [traceRun, hl] using hq
        exact Or.inl ⟨env.labelerOut ln, rfl,
          by rw [hl]; exact (traceRun_head cfg env f n2 s2 (ln + 1) cn q hq2).symm⟩
      | critic =>
        rcases hl : critic_node (env.criticOut cn) s with ⟨n2, s2⟩
        have hq2 : (traceRun cfg env f n2 s2 ln (cn + 1)).get? 0 = some q := by
          simpa [traceRun, hl] using hq
        exact Or.inr (Or.inl ⟨env.criticOut cn, rfl,
          by rw [hl]; exact (traceRun_head cfg env f n2 s2 ln (cn + 1) q hq2).symm⟩)
      | validator =>
        cases hv : validator_node cfg s with
        | none => rw [traceRun] at hq; rw [hv] at hq; simp at hq
        | some q2 =>
          have hq2 : (traceRun cfg env f q2.1 q2.2 ln cn).get? 0 = some q := by
            rw [traceRun] at hq; rw [hv] at hq; simpa using hq
          have := traceRun_head cfg env f q2.1 q2.2 ln cn q hq2
          exact Or.inr (Or.inr (Or.inl ⟨rfl, by rw [hv, this]⟩))
      | fallback =>
        cases hv : (fallback_node env.writeOk env.timestamp s).outcome with
        | none => rw [traceRun] at hq; rw [hv] at hq; simp at hq
        | some q2 =>
          have hq2 : (traceRun cfg env f q2.1 q2.2 ln cn).get? 0 = some q := by
            rw [traceRun] at hq; rw [hv] at hq; simpa using hq
          have := traceRun_head cfg env f q2.1 q2.2 ln cn q hq2
          exact Or.inr (Or.inr (Or.inr ⟨rfl, by rw [hv, this]⟩))
    | succ i =>
      cases n with
      | endNode => rw [traceRun] at hp; simp at hp
      | labeler =>
        rcases hl : labeler_node (env.labelerOut ln) s with ⟨n2, s2⟩
        rw [traceRun] at hp hq; rw [hl] at hp hq
        exact ih n2 s2 (ln + 1) cn i p q hp hq
      | critic =>
        rcases hl : critic_node (env.criticOut cn) s with ⟨n2, s2⟩
        rw [traceRun] at hp hq; rw [hl] at hp hq
        exact ih n2 s2 ln (cn + 1) i p q hp hq
      | validator =>
        cases hv : validator_node cfg s with
        | none => rw [traceRun] at hp; rw [hv] at hp; simp at hp
        | some q2 =>
          rw [traceRun] at hp hq; rw [hv] at hp hq
          exact ih q2.1 q2.2 ln cn i p q hp hq
      | fallback =>
        cases hv : (fallback_node env.writeOk env.timestamp s).outcome with
        | none => rw [traceRun] at hp; rw [hv] at hp; simp at hp
        | some q2 =>
          rw [traceRun] at hp hq; rw [hv] at hp hq
          exact ih q2.1 q2.2 ln cn i p q hp hq

/-! ## Arithmetic facts about the confidence average -/

theorem fdiv_two_bounds (a b : Int) (ha : 0 ≤ a) (ha2 : a ≤ 100)
    (hb : 0 ≤ b) (hb2 : b ≤ 100) :
    0 ≤ Int.fdiv (a + b) 2 ∧ Int.fdiv (a + b) 2 ≤ 100 := by
  rw [Int.fdiv_eq_ediv _ (by norm_num)]
  omega

/-! ## Preservation of the confidence-aggregation invariant -/

theorem goodState_labeler (env : Env) (hb : EnvBounded env) (ln : Nat)
    (s : RunState) (h : GoodState s) :
    GoodState ((labeler_node (env.labelerOut ln) s).2) := by
  rcases labeler_node_spec (env.labelerOut ln) s with ⟨log, heq⟩ | ⟨p, log, hsrc, heq⟩
  · rw [heq]
    refine ⟨?_, ?_, ?_⟩
    · intro q hq
      simp only [Option.some.injEq] at hq
      subst hq
      exact ⟨by decide, by decide⟩
    · intro r hr
      exact h.2.1 r hr
    · intro v hv
      exact h.2.2 v hv
  · rw [heq]
    refine ⟨?_, ?_, ?_⟩
    · intro q hq
      simp only [Option.some.injEq] at hq
      subst hq
      exact (hb ln).1 p hsrc
    · intro r hr
      exact h.2.1 r hr
    · intro v hv
      exact h.2.2 v hv

theorem goodState_critic (env : Env) (hb : EnvBounded env) (cn : Nat)
    (s : RunState) (h : GoodState s) :
    GoodState ((critic_node (env.criticOut cn) s).2) := by
  rcases critic_node_spec (env.criticOut cn) s with ⟨r, log, hprov, hcase⟩
  have hrb : RevBounded r := by
    rcases hprov with h1 | h2 | h3
    · exact (hb cn).2 r (Or.inl h1)
    · exact (hb cn).2 r (Or.inr h2)
    · rw [h3]; exact ⟨by decide, by decide⟩
  rcases hcase with ⟨heq, _⟩ | ⟨heq, _, _⟩ | ⟨heq, _, _⟩ <;> rw [heq] <;>
    refine ⟨fun q hq => h.1 q hq, fun r2 hr2 => ?_, fun v hv => h.2.2 v hv⟩ <;>
    · simp only [Option.some.injEq] at hr2
      subst hr2
      exact hrb

theorem goodState_validator (cfg : SystemConfig) (s : RunState) (q : Node × RunState)
    (h : GoodState s) (hv : validator_node cfg s = some q) : GoodState q.2 := by
  cases hp : s.labeler_output with
  | none => unfold validator_node at hv; rw [hp] at hv; cases hv
  | some p =>
    cases hr : s.critic_review with
    | none => unfold validator_node at hv; rw [hp, hr] at hv; cases hv
    | some r =>
      by_cases hlow :
          Int.fdiv (p.confidence + r.confidence_score) 2 < cfg.min_confidence_threshold
      · rw [validator_node_low cfg s p r hp hr hlow] at hv
        rcases Option.some.inj hv with rfl
        exact ⟨fun q2 hq2 => h.1 q2 hq2, fun r2 hr2 => h.2.1 r2 hr2,
          fun v hvv => h.2.2 v hvv⟩
      · rw [validator_node_ok cfg s p r hp hr hlow] at hv
        rcases Option.some.inj hv with rfl
        refine ⟨fun q2 hq2 => h.1 q2 hq2, fun r2 hr2 => h.2.1 r2 hr2, fun v hvv => ?_⟩
        simp only [Option.some.injEq] at hvv
        subst hvv
        intro _
        have hpb := h.1 p hp
        have hrb := h.2.1 r hr
        have hbd := fdiv_two_bounds p.confidence r.confidence_score hpb.1 hpb.2 hrb.1 hrb.2
        exact ⟨rfl, hbd.1, hbd.2⟩

theorem goodState_fallback (wOk : Bool) (ts : String) (s : RunState) (q : Node × RunState)
    (h : GoodState s) (hv : (fallback_node wOk ts s).outcome = some q) : GoodState q.2 := by
  unfold fallback_node at hv
  cases hp : s.labeler_output with
  | none => rw [hp] at hv; cases hr : s.critic_review <;> rw [hr] at hv <;> cases hv
  | some p =>
    cases hr : s.critic_review with
    | none => rw [hp, hr] at hv; cases hv
    | some r =>
      rw [hp, hr] at hv
      rcases Option.some.inj hv with rfl
      refine ⟨fun q2 hq2 => ?_, fun r2 hr2 => ?_, fun v hvv => ?_⟩
      · simp only [Option.some.injEq] at hq2
        subst hq2
        exact h.1 p hp
      · simp only [Option.some.injEq] at hr2
        subst hr2
        exact h.2.1 r hr
      · simp only [Option.some.injEq] at hvv
        subst hvv
        intro habs
        exact absurd habs (by simp)

/-! ## Symbolic stepping lemmas -/

theorem stepRun_labeler_ok (cfg : SystemConfig) (env : Env) (f : Nat) (s : RunState)
    (ln cn : Nat) (p : LabelPrediction) (hok : (env.labelerOut ln).1 = .ok p) :
    stepRun cfg env (f + 1) Node.labeler s ln cn =
      stepRun cfg env f Node.critic
        { s with labeler_output := some p,
                 labeler_attempts := s.labeler_attempts ++ [p] } (ln + 1) cn := by
  have hl : labeler_node (env.labelerOut ln) s =
      (Node.critic, { s with labeler_output := some p,
                             labeler_attempts := s.labeler_attempts ++ [p] }) := by
    unfold labeler_node
    rw [show runTwoAttempts "Labeler" (env.labelerOut ln).1 (env.labelerOut ln).2
        s.error_log = (some p, s.error_log) by rw [hok]; rfl]
  show stepRun cfg env (Nat.succ f) Node.labeler s ln cn = _
  rw [stepRun, hl]

theorem stepRun_critic_reject (cfg : SystemConfig) (env : Env) (f : Nat) (s : RunState)
    (ln cn : Nat) (r : CriticReview) (hok : (env.criticOut cn).1 = .ok r)
    (hrj : r.is_correct = false) (hlt : s.retry_count < s.max_retries) :
    stepRun cfg env (f + 1) Node.critic s ln cn =
      stepRun cfg env f Node.labeler
        { s with critic_review := some r,
                 critic_reviews := s.critic_reviews ++ [r],
                 retry_count := s.retry_count + 1 } ln (cn + 1) := by
  have hl : critic_node (env.criticOut cn) s =
      (Node.labeler, { s with critic_review := some r,
                              critic_reviews := s.critic_reviews ++ [r],
                              retry_count := s.retry_count + 1 }) := by
    unfold critic_node
    rw [show runTwoAttempts "Critic" (env.criticOut cn).1 (env.criticOut cn).2
        s.error_log = (some r, s.error_log) by rw [hok]; rfl]
    simp [hrj, hlt]
  show stepRun cfg env (Nat.succ f) Node.critic s ln cn = _
  rw [stepRun, hl]

theorem stepRun_critic_reject_limit (cfg : SystemConfig) (env : Env) (f : Nat)
    (s : RunState) (ln cn : Nat) (r : CriticReview) (hok : (env.criticOut cn).1 = .ok r)
    (hrj : r.is_correct = false) (hge : ¬ s.retry_count < s.max_retries) :
    stepRun cfg env (f + 1) Node.critic s ln cn =
      stepRun cfg env f Node.fallback
        { s with critic_review := some r,
                 critic_reviews := s.critic_reviews ++ [r],
                 fallback_to_human := true,
                 error_log := s.error_log ++
                   ["Critic: max retries reached, sending to fallback"] } ln (cn + 1) := by
  have hl : critic_node (env.criticOut cn) s =
      (Node.fallback, { s with critic_review := some r,
                               critic_reviews := s.critic_reviews ++ [r],
                               fallback_to_human := true,
                               error_log := s.error_log ++
                                 ["Critic: max retries reached, sending to fallback"] }) := by
    unfold critic_node
    rw [show runTwoAttempts "Critic" (env.criticOut cn).1 (env.criticOut cn).2
        s.error_log = (some r, s.error_log) by rw [hok]; rfl]
    simp [hrj, hge]
  show stepRun cfg env (Nat.succ f) Node.critic s ln cn = _
  rw [stepRun, hl]

theorem stepRun_critic_accept (cfg : SystemConfig) (env : Env) (f : Nat) (s : RunState)
    (ln cn : Nat) (r : CriticReview) (hok : (env.criticOut cn).1 = .ok r)
    (hacc : r.is_correct = true) :
    stepRun cfg env (f + 1) Node.critic s ln cn =
      stepRun cfg env f Node.validator
        { s with critic_review := some r,
                 critic_reviews := s.critic_reviews ++ [r] } ln (cn + 1) := by
  have hl : critic_node (env.criticOut cn) s =
      (Node.validator, { s with critic_review := some r,
                                critic_reviews := s.critic_reviews ++ [r] }) := by
    unfold critic_node
    rw [show runTwoAttempts "Critic" (env.criticOut cn).1 (env.criticOut cn).2
        s.error_log = (some r, s.error_log) by rw [hok]; rfl]
    simp [hacc]
  show stepRun cfg env (Nat.succ f) Node.critic s ln cn = _
  rw [stepRun, hl]

theorem stepRun_endNode (cfg : SystemConfig) (env : Env) (f : Nat) (s : RunState)
    (ln cn : Nat) :
    stepRun cfg env (f + 1) Node.endNode s ln cn = (RunOutcome.finished s, []) := by
  show stepRun cfg env (Nat.succ f) Node.endNode s ln cn = _
  rw [stepRun]

/-- A fallback entered with both `labeler_output` and `critic_review`
set runs to completion in two steps, returning the degraded record and
persisting the review item exactly when the write succeeds. -/
theorem stepRun_fallback_done (cfg : SystemConfig) (env : Env) (f : Nat) (s : RunState)
    (ln cn : Nat) (p : LabelPrediction) (r : CriticReview)
    (hp : s.labeler_output = some p) (hr : s.critic_review = some r) :
    stepRun cfg env (f + 2) Node.fallback s ln cn =
      (RunOutcome.finished
        { s with validated_output := some (OutRecord.mk s.data_id p.label p.confidence
            "Sent to human review" r.confidence_score 0 s.retry_count
            (some (determineReason s).value)) },
       if env.writeOk then
         [HumanReviewItem.mk s.data_id s.input_data s.labeler_attempts s.critic_reviews
           s.error_log (determineReason s).value env.timestamp]
       else []) := by
  have ho := fallback_node_outcome env.writeOk env.timestamp s p r hp hr
  have hi := fallback_node_item env.writeOk env.timestamp s
  have hpe := fallback_node_persisted env.writeOk env.timestamp s
  show stepRun cfg env (Nat.succ (f + 1)) Node.fallback s ln cn = _
  rw [stepRun, ho]
  simp only [hi, hpe, stepRun_endNode]
  cases env.writeOk <;> simp

/-- The validator changes no counter and no history, and moves only to
the fallback or end node. -/
theorem validator_node_counters (cfg : SystemConfig) (s : RunState) (q : Node × RunState)
    (hv : validator_node cfg s = some q) :
    q.2.retry_count = s.retry_count ∧ q.2.max_retries = s.max_retries ∧
    q.2.labeler_attempts = s.labeler_attempts ∧
    (q.1 = Node.fallback ∨ q.1 = Node.endNode) := by
  cases hp : s.labeler_output with
  | none => unfold validator_node at hv; rw [hp] at hv; cases hv
  | some p =>
    cases hr : s.critic_review with
    | none => unfold validator_node at hv; rw [hp, hr] at hv; cases hv
    | some r =>
      by_cases hlow :
          Int.fdiv (p.confidence + r.confidence_score) 2 < cfg.min_confidence_threshold
      · rw [validator_node_low cfg s p r hp hr hlow] at hv
        rcases Option.some.inj hv with rfl
        exact ⟨rfl, rfl, rfl, Or.inl rfl⟩
      · rw [validator_node_ok cfg s p r hp hr hlow] at hv
        rcases Option.some.inj hv with rfl
        exact ⟨rfl, rfl, rfl, Or.inr rfl⟩

/-- A returning fallback changes no counter and no history, and always
ends the run. -/
theorem fallback_node_counters (wOk : Bool) (ts : String) (s : RunState)
    (q : Node × RunState) (hv : (fallback_node wOk ts s).outcome = some q) :
    q.2.retry_count = s.retry_count ∧ q.2.max_retries = s.max_retries ∧
    q.2.labeler_attempts = s.labeler_attempts ∧ q.1 = Node.endNode := by
  unfold fallback_node at hv
  cases hp : s.labeler_output with
  | none => rw [hp] at hv; cases hr : s.critic_review <;> rw [hr] at hv <;> cases hv
  | some p =>
    cases hr : s.critic_review with
    | none => rw [hp, hr] at hv; cases hv
    | some r =>
      rw [hp, hr] at hv
      rcases Option.some.inj hv with rfl
      exact ⟨rfl, rfl, rfl, rfl⟩

/-! ## The claims -/

/-- Claim C1 (code-bug evaluation).  The claim states that every task
run produces exactly one terminal artifact — a Validating-stage success
record or a HumanReviewItem with a degraded record — never both and
never neither, including when graph execution raises.  The code
violates this: when both local decode attempts of the first Labeling
entry fail and the review-queue write also fails, `fallback_node`
raises `AttributeError` (it calls `.get` on the stored `None`
`critic_review`) after the failed best-effort write, so the run returns
only the synthetic ERROR record: no review item is persisted and no
Validating-stage record exists — neither artifact is produced. -/
theorem claim_c1_crash_run_produces_no_artifact :
    run_labeling_graph 20 (envParseFail false) taskX cfgX =
      (some (errRecord "t1" ("Graph error: " ++ noneGetMsg)), []) ∧
    (errRecord "t1" ("Graph error: " ++ noneGetMsg)).fallback_reason = none ∧
    (errRecord "t1" ("Graph error: " ++ noneGetMsg)).label = "ERROR" :=
  ⟨rfl, rfl, rfl⟩

/-- Claim C4 (code-bug evaluation).  The claim states that a run whose
first Labeling entry decodes nothing on both local attempts escalates
with recorded reason PARSING_ERROR and zero critic attempts.  The code
instead: (1) records reason VALIDATION_ERROR in the queued item,
because the reason is inferred by substring-matching `str(error_log)`
and the string `Parse error` is only ever written into the stub
`labeler_output`, never into the log; and (2) raises `AttributeError`
after the write (`.get` on the stored `None` `critic_review`), so the
caller receives the synthetic ERROR record instead of the degraded
fallback record.  The zero-critic-attempts part does hold. -/
theorem claim_c4_parse_failure_wrong_reason :
    ((run_labeling_graph 20 (envParseFail true) taskX cfgX).2.map
      (fun i => (i.fallback_reason, i.critic_reviews.length))) = [("VALIDATION_ERROR", 0)] ∧
    (run_labeling_graph 20 (envParseFail true) taskX cfgX).1 =
      some (errRecord "t1" ("Graph error: " ++ noneGetMsg)) :=
  ⟨rfl, rfl⟩

/-- Claim C7 (counterexample).  The claim describes step 3 of the
decoder as parsing the *first balanced* brace span.  On the input
`\x7b"a": 1\x7d \x7d` the claimed algorithm (modelled from the spec's
words as `decode_spec`) extracts the balanced span `\x7b"a": 1\x7d`
and succeeds, while the source decoder's greedy regex span runs from
the first `\x7b` to the *last* `\x7d` and fails every step, returning
`none`: the decoder does not implement the claimed step. -/
theorem claim_c7_counterexample :
    parse_llm_json strayBraceInput = none ∧
    decode_spec strayBraceInput = some (Json.obj [("a", Json.num "1")]) := ⟨rfl, rfl⟩

/-- Claim C7 (amended).  For every input string the decoder never
raises (it is a total function) and tries exactly these steps in
order, returning the first success and `none` if all fail: (1) direct
parse of the whole stripped text; (2) parse of the interior of a
fenced triple-backtick block; (3) parse of the span from the first
`\x7b` to the last `\x7d` (the greedy regex match, not the first
balanced span); (4) parse of the span from the first `[` to the last
`]`; (5) lenient repair (strip trailing commas before closing
brackets, normalise single quotes to double) followed by a retry of
the greedy `\x7b...\x7d` search — except that an empty input, or one
beginning with the in-band gateway error marker `[LLM ERROR`, returns
`none` immediately. -/
theorem claim_c7_amended (s : String) : parse_llm_json s = decodeAmended s := by
  unfold parse_llm_json decodeAmended
  split
  · rfl
  · cases h1 : decodeDirect (pyStrip s.data) with
    | some v => simp [firstSome, h1]
    | none =>
      cases h2 : decodeFenced (pyStrip s.data) with
      | some v => simp [firstSome, h1, h2]
      | none =>
        cases h3 : decodeBrace (pyStrip s.data) with
        | some v => simp [firstSome, h1, h2, h3]
        | none =>
          cases h4 : decodeBracket (pyStrip s.data) with
          | some v => simp [firstSome, h1, h2, h3, h4]
          | none =>
            cases h5 : decodeRepair (pyStrip s.data) <;>
              simp [firstSome, h1, h2, h3, h4, h5]

/-- Claim C8: in the Critiquing stage, if decoding fails on both local
attempts the run never escalates from that failure: the critique
defaults to `is_correct = true` with `confidence_score = 70`, and the
run transitions to Validating. -/
theorem claim_c8_critic_decode_default (o1 o2 : AttemptOutcome CriticReview)
    (s : RunState) (h1 : ∀ v, o1 ≠ .ok v) (h2 : ∀ v, o2 ≠ .ok v) :
    ∃ log, critic_node (o1, o2) s =
      (Node.validator,
        { s with critic_review := some criticDefault,
                 critic_reviews := s.critic_reviews ++ [criticDefault],
                 error_log := log }) ∧
      criticDefault.is_correct = true ∧ criticDefault.confidence_score = 70 := by
  cases o1 with
  | ok v => exact absurd rfl (h1 v)
  | noParse =>
    cases o2 with
    | ok v => exact absurd rfl (h2 v)
    | noParse => exact ⟨s.error_log, by unfold critic_node; rfl, rfl, rfl⟩
    | err m => exact ⟨s.error_log ++ [attemptMsg "Critic" 2 m],
        by unfold critic_node; rfl, rfl, rfl⟩
  | err m1 =>
    cases o2 with
    | ok v => exact absurd rfl (h2 v)
    | noParse => exact ⟨s.error_log ++ [attemptMsg "Critic" 1 m1],
        by unfold critic_node; rfl, rfl, rfl⟩
    | err m2 => exact ⟨(s.error_log ++ [attemptMsg "Critic" 1 m1]) ++ [attemptMsg "Critic" 2 m2],
        by unfold critic_node; rfl, rfl, rfl⟩

/-- Witness for C8 at a concrete state and outcomes. -/
theorem claim_c8_witness :
    ∃ log, critic_node (AttemptOutcome.noParse, AttemptOutcome.noParse)
        (initState taskX cfgX) =
      (Node.validator,
        { initState taskX cfgX with
            critic_review := some criticDefault,
            critic_reviews := (initState taskX cfgX).critic_reviews ++ [criticDefault],
            error_log := log }) ∧
      criticDefault.is_correct = true ∧ criticDefault.confidence_score = 70 :=
  claim_c8_critic_decode_default AttemptOutcome.noParse AttemptOutcome.noParse
    (initState taskX cfgX) (fun v h => by cases h) (fun v h => by cases h)

/-- Claim C9: a failure of the review-queue write never propagates out
of the run — the fallback node's command is identical whether or not
the durable write succeeds — and (whenever the stage returns at all,
i.e. on every reachable entry, where `labeler_output` and
`critic_review` are both set) it returns a degraded terminal record
with `final_confidence = 0` and the recorded fallback reason. -/
theorem claim_c9_fallback_write_swallowed :
    (∀ ts s, (fallback_node true ts s).outcome = (fallback_node false ts s).outcome) ∧
    (∀ (wOk : Bool) ts s p r, s.labeler_output = some p → s.critic_review = some r →
      ∃ s2, (fallback_node wOk ts s).outcome = some (Node.endNode, s2) ∧
        ∃ v, s2.validated_output = some v ∧ v.final_confidence = 0 ∧
          v.fallback_reason = some (determineReason s).value) := by
  constructor
  · exact fallback_node_write_independent
  · intro wOk ts s p r hp hr
    exact ⟨_, fallback_node_outcome wOk ts s p r hp hr, _, rfl, rfl, rfl⟩

/-- Witness for C9 at a concrete fallback-entry state. -/
theorem claim_c9_witness :
    ∃ s2, (fallback_node false "TS" sFallEx).outcome = some (Node.endNode, s2) ∧
      ∃ v, s2.validated_output = some v ∧ v.final_confidence = 0 ∧
        v.fallback_reason = some (determineReason sFallEx).value :=
  claim_c9_fallback_write_swallowed.2 false "TS" sFallEx (predC 90) (revOf false 50) rfl rfl

/-- Claim C2: for every ValidatedLabel produced by the Validating
stage (equivalently, every run result without a `fallback_reason`),
given that every labeler and critic confidence the environment can
supply is an integer in `[0, 100]`, `final_confidence` equals
`floor((labeler_confidence + critic_confidence) / 2)` (Python `//` is
floor division, `Int.fdiv`) and lies in `[0, 100]`. -/
theorem claim_c2_final_confidence (env : Env) (fuel : Nat) (task : LabelingTask)
    (cfg : SystemConfig) (v : OutRecord) (w : List HumanReviewItem)
    (hb : EnvBounded env)
    (hrun : run_labeling_graph fuel env task cfg = (some v, w))
    (hnone : v.fallback_reason = none) :
    v.final_confidence = Int.fdiv (v.confidence + v.critic_confidence) 2 ∧
    0 ≤ v.final_confidence ∧ v.final_confidence ≤ 100 := by
  unfold run_labeling_graph at hrun
  rcases hstep : stepRun cfg env fuel Node.labeler (initState task cfg) 0 0 with ⟨o, wr⟩
  rw [hstep] at hrun
  cases o with
  | outOfFuel => simp at hrun
  | raised m =>
    simp only [Prod.mk.injEq, Option.some.injEq] at hrun
    rw [← hrun.1]
    exact ⟨rfl, Int.le_refl 0, (by norm_num : (0 : Int) ≤ 100)⟩
  | finished sf =>
    simp only [Prod.mk.injEq] at hrun
    have hGS : GoodState sf := by
      refine stepRun_finished_inv cfg env (fun p => GoodState p.2) ?_ ?_ ?_ ?_
        fuel Node.labeler (initState task cfg) 0 0 sf wr ?_ hstep
      · intro ln s h; exact goodState_labeler env hb ln s h
      · intro cn s h; exact goodState_critic env hb cn s h
      · intro s q h hv; exact goodState_validator cfg s q h hv
      · intro s q h hv; exact goodState_fallback env.writeOk env.timestamp s q h hv
      · exact ⟨fun p hp => by simp [initState] at hp,
          fun r hr => by simp [initState] at hr,
          fun v2 hv2 => by simp [initState] at hv2⟩
    exact hGS.2.2 v hrun.1 hnone

/-- Witness for C2 on a clean success run (labeler 90, critic 95:
`final_confidence = 92`). -/
theorem claim_c2_witness :
    ∃ v, (run_labeling_graph 20 envHappy taskX cfgX).1 = some v ∧
      (v.final_confidence = Int.fdiv (v.confidence + v.critic_confidence) 2 ∧
       0 ≤ v.final_confidence ∧ v.final_confidence ≤ 100) := by
  have hb : EnvBounded envHappy := by
    intro n
    constructor
    · rintro p (h | h)
      · simp only [envHappy] at h
        rcases AttemptOutcome.ok.inj h with rfl
        exact ⟨by decide, by decide⟩
      · exact absurd h (by simp [envHappy])
    · rintro r (h | h)
      · simp only [envHappy] at h
        rcases AttemptOutcome.ok.inj h with rfl
        exact ⟨by decide, by decide⟩
      · exact absurd h (by simp [envHappy])
  refine ⟨OutRecord.mk "t1" "POS" 90 "r" 95 92 0 none, rfl, ?_⟩
  exact claim_c2_final_confidence envHappy 20 taskX cfgX
    (OutRecord.mk "t1" "POS" 90 "r" 95 92 0 none) [] hb rfl rfl

/-- Claim C3 (counterexample).  The claim's attempt-list invariant —
in every reachable state, once the Labeling stage has run at least
once, `len(labeler_attempts) = retry_count + 1` — is false as stated:
immediately after a critique rejection re-enters the Labeling stage,
the state has `retry_count` already incremented but the re-label not
yet appended.  At snapshot index 2 of the rejection run (entering the
labeler for the second time) the attempt list has length 1 while
`retry_count + 1 = 2`. -/
theorem claim_c3_counterexample :
    ¬ ClaimAttemptInv
      (traceRun cfgX envRejectThenLow 20 Node.labeler (initState taskX cfgX) 0 0) := by
  intro h
  have hq : ((traceRun cfgX envRejectThenLow 20 Node.labeler (initState taskX cfgX) 0 0).get? 2).map
      (fun p => (p.1, p.2.labeler_attempts.length, p.2.retry_count)) =
      some (Node.labeler, 1, 1) := rfl
  have h0 : ((traceRun cfgX envRejectThenLow 20 Node.labeler (initState taskX cfgX) 0 0).get? 0).map
      (fun p => p.1) = some Node.labeler := rfl
  cases hg2 : (traceRun cfgX envRejectThenLow 20 Node.labeler (initState taskX cfgX) 0 0).get? 2 with
  | none => rw [hg2] at hq; cases hq
  | some p2 =>
    cases hg0 : (traceRun cfgX envRejectThenLow 20 Node.labeler (initState taskX cfgX) 0 0).get? 0 with
    | none => rw [hg0] at h0; cases h0
    | some p0 =>
      rw [hg2] at hq
      rw [hg0] at h0
      simp only [Option.map_some', Option.some.injEq, Prod.mk.injEq] at hq h0
      have hlen := h 2 p2 hg2 ⟨0, p0, by omega, hg0, h0⟩
      omega

/-- Claim C3 (amended): in every reachable state of a run,
`retry_count ≤ max_retries`; every critique rejection that re-enters
the Labeling stage increments `retry_count` by exactly one; and on
every entry to the Critiquing stage — i.e. immediately after each
completed (successful) Labeling — the attempt list has length
`retry_count + 1`.  (As stated, with the length equation demanded in
*every* state after the first labeling, the claim fails; see the
counterexample.) -/
theorem claim_c3_amended (cfg : SystemConfig) (env : Env) (task : LabelingTask)
    (fuel : Nat) :
    (∀ p ∈ traceRun cfg env fuel Node.labeler (initState task cfg) 0 0,
        p.2.retry_count ≤ p.2.max_retries) ∧
    (∀ i p q,
        (traceRun cfg env fuel Node.labeler (initState task cfg) 0 0).get? i = some p →
        (traceRun cfg env fuel Node.labeler (initState task cfg) 0 0).get? (i + 1) = some q →
        p.1 = Node.critic → q.1 = Node.labeler →
        q.2.retry_count = p.2.retry_count + 1) ∧
    (∀ p ∈ traceRun cfg env fuel Node.labeler (initState task cfg) 0 0,
        p.1 = Node.critic →
        p.2.labeler_attempts.length = p.2.retry_count + 1) := by
  refine ⟨?_, ?_, ?_⟩
  · -- retry_count never exceeds max_retries
    refine traceRun_inv cfg env (fun p => p.2.retry_count ≤ p.2.max_retries)
      ?_ ?_ ?_ ?_ fuel Node.labeler (initState task cfg) 0 0 (Nat.zero_le _)
    · intro ln s h
      rcases labeler_node_spec (env.labelerOut ln) s with ⟨log, heq⟩ | ⟨p, log, _, heq⟩ <;>
        rw [heq] <;> exact h
    · intro cn s h
      rcases critic_node_spec (env.criticOut cn) s with ⟨r, log, _, hcase⟩
      rcases hcase with ⟨heq, _⟩ | ⟨heq, _, hlt⟩ | ⟨heq, _, _⟩ <;> rw [heq]
      · exact h
      · exact hlt
      · exact h
    · intro s q h hv
      have hc := validator_node_counters cfg s q hv
      rw [hc.1, hc.2.1]
      exact h
    · intro s q h hv
      have hc := fallback_node_counters env.writeOk env.timestamp s q hv
      rw [hc.1, hc.2.1]
      exact h
  · -- each rejection-triggered re-label increments the counter by one
    intro i p q hp hq hpc hql
    have hrel := traceRun_succ cfg env fuel Node.labeler (initState task cfg) 0 0 i p q hp hq
    rcases hrel with ⟨o, hn, _⟩ | ⟨o, _, heq⟩ | ⟨hn, _⟩ | ⟨hn, _⟩
    · rw [hpc] at hn
      exact absurd hn (by decide)
    · rcases critic_node_spec o p.2 with ⟨r, log, _, hcase⟩
      rcases hcase with ⟨heq2, _⟩ | ⟨heq2, _, _⟩ | ⟨heq2, _, _⟩
      · rw [heq2] at heq
        rw [← heq] at hql
        simp at hql
      · rw [heq2] at heq
        rw [← heq]
      · rw [heq2] at heq
        rw [← heq] at hql
        simp at hql
    · rw [hpc] at hn
      exact absurd hn (by decide)
    · rw [hpc] at hn
      exact absurd hn (by decide)
  · -- on every entry to Critiquing the history has length retry_count + 1
    have hinv := traceRun_inv cfg env
      (fun p => (p.1 = Node.labeler →
          p.2.labeler_attempts.length = p.2.retry_count) ∧
        ((p.1 = Node.critic ∨ p.1 = Node.validator) →
          p.2.labeler_attempts.length = p.2.retry_count + 1))
      ?_ ?_ ?_ ?_ fuel Node.labeler (initState task cfg) 0 0 ?_
    · intro p hp hpc
      exact (hinv p hp).2 (Or.inl hpc)
    · intro ln s h
      rcases labeler_node_spec (env.labelerOut ln) s with ⟨log, heq⟩ | ⟨p, log, _, heq⟩ <;>
        rw [heq]
      · refine ⟨fun habs => ?_, fun habs => ?_⟩
        · simp at habs
        · rcases habs with h2 | h2 <;> simp at h2
      · refine ⟨fun habs => ?_, fun _ => ?_⟩
        · simp at habs
        · have hl : s.labeler_attempts.length = s.retry_count := h.1 rfl
          show (s.labeler_attempts ++ [p]).length = s.retry_count + 1
          simp only [List.length_append, List.length_cons, List.length_nil]
          omega
    · intro cn s h
      rcases critic_node_spec (env.criticOut cn) s with ⟨r, log, _, hcase⟩
      have hlen : s.labeler_attempts.length = s.retry_count + 1 := h.2 (Or.inl rfl)
      rcases hcase with ⟨heq, _⟩ | ⟨heq, _, _⟩ | ⟨heq, _, _⟩ <;> rw [heq]
      · refine ⟨fun habs => ?_, fun _ => hlen⟩
        simp at habs
      · refine ⟨fun _ => hlen, fun habs => ?_⟩
        rcases habs with h2 | h2 <;> simp at h2
      · refine ⟨fun habs => ?_, fun habs => ?_⟩
        · simp at habs
        · rcases habs with h2 | h2 <;> simp at h2
    · intro s q h hv
      have hc := validator_node_counters cfg s q hv
      rcases hc.2.2.2 with hn | hn <;>
        refine ⟨fun habs => ?_, fun habs => ?_⟩
      · exact absurd (hn.symm.trans habs) (by decide)
      · rcases habs with h2 | h2 <;> exact absurd (hn.symm.trans h2) (by decide)
      · exact absurd (hn.symm.trans habs) (by decide)
      · rcases habs with h2 | h2 <;> exact absurd (hn.symm.trans h2) (by decide)
    · intro s q h hv
      have hc := fallback_node_counters env.writeOk env.timestamp s q hv
      refine ⟨fun habs => ?_, fun habs => ?_⟩
      · exact absurd (hc.2.2.2.symm.trans habs) (by decide)
      · rcases habs with h2 | h2 <;> exact absurd (hc.2.2.2.symm.trans h2) (by decide)
    · refine ⟨fun _ => rfl, fun habs => ?_⟩
      rcases habs with h2 | h2 <;> simp at h2

/-- Witness for C3 at the first Critiquing entry of a concrete run:
one attempt recorded, `retry_count = 0`. -/
theorem claim_c3_witness :
    ∃ p, (traceRun cfgX envRejectThenLow 20 Node.labeler (initState taskX cfgX) 0 0).get? 1 =
        some p ∧
      p.2.labeler_attempts.length = p.2.retry_count + 1 := by
  cases hg : (traceRun cfgX envRejectThenLow 20 Node.labeler (initState taskX cfgX) 0 0).get? 1 with
  | none =>
    have hsome : ((traceRun cfgX envRejectThenLow 20 Node.labeler
        (initState taskX cfgX) 0 0).get? 1).isSome = true := rfl
    rw [hg] at hsome
    cases hsome
  | some p =>
    have hmem : p ∈ traceRun cfgX envRejectThenLow 20 Node.labeler (initState taskX cfgX) 0 0 :=
      List.get?_mem hg
    have hcrit : p.1 = Node.critic := by
      have hm : ((traceRun cfgX envRejectThenLow 20 Node.labeler
          (initState taskX cfgX) 0 0).get? 1).map (fun q => q.1) = some Node.critic := rfl
      rw [hg] at hm
      exact Option.some.inj hm
    exact ⟨p, rfl, (claim_c3_amended cfgX envRejectThenLow taskX 20).2.2 p hmem hcrit⟩

/-- Claim C5: if labeling always decodes (first local attempt) and the
critic returns `is_correct = false` on every attempt with
`max_retries = 3` — four rejections in a row — the run escalates to
Fallback with reason RETRY_LIMIT, `retry_count = 3`, and the
labeler-attempt list has exactly `max_retries + 1 = 4` entries. -/
theorem claim_c5_retry_exhaustion (env : Env) (cfg : SystemConfig) (task : LabelingTask)
    (P : Nat → LabelPrediction) (R : Nat → CriticReview)
    (hL : ∀ n, (env.labelerOut n).1 = .ok (P n))
    (hC : ∀ n, (env.criticOut n).1 = .ok (R n))
    (hR : ∀ n, (R n).is_correct = false)
    (hmr : cfg.max_retries = 3) (f : Nat) :
    ∃ sf w v,
      stepRun cfg env (f + 10) Node.labeler (initState task cfg) 0 0 =
        (RunOutcome.finished sf, w) ∧
      sf.validated_output = some v ∧
      v.fallback_reason = some "RETRY_LIMIT" ∧ v.retry_count = 3 ∧
      sf.labeler_attempts.length = 4 ∧ sf.retry_count = 3 := by
  have hlt3 : ∀ k : Nat, k < 3 → k < cfg.max_retries := by
    intro k hk
    rw [hmr]
    exact hk
  have e1 : stepRun cfg env (f + 10) Node.labeler (initState task cfg) 0 0 =
      stepRun cfg env (f + 9) Node.critic (afterLab (initState task cfg) (P 0)) 1 0 :=
    stepRun_labeler_ok cfg env (f + 9) (initState task cfg) 0 0 (P 0) (hL 0)
  have e2 : stepRun cfg env (f + 9) Node.critic (afterLab (initState task cfg) (P 0)) 1 0 =
      stepRun cfg env (f + 8) Node.labeler
        (afterRej (afterLab (initState task cfg) (P 0)) (R 0)) 1 1 :=
    stepRun_critic_reject cfg env (f + 8) _ 1 0 (R 0) (hC 0) (hR 0) (hlt3 0 (by decide))
  have e3 : stepRun cfg env (f + 8) Node.labeler
        (afterRej (afterLab (initState task cfg) (P 0)) (R 0)) 1 1 =
      stepRun cfg env (f + 7) Node.critic
        (afterLab (afterRej (afterLab (initState task cfg) (P 0)) (R 0)) (P 1)) 2 1 :=
    stepRun_labeler_ok cfg env (f + 7) _ 1 1 (P 1) (hL 1)
  have e4 : stepRun cfg env (f + 7) Node.critic
        (afterLab (afterRej (afterLab (initState task cfg) (P 0)) (R 0)) (P 1)) 2 1 =
      stepRun cfg env (f + 6) Node.labeler
        (afterRej (afterLab (afterRej (afterLab (initState task cfg) (P 0)) (R 0)) (P 1))
          (R 1)) 2 2 :=
    stepRun_critic_reject cfg env (f + 6) _ 2 1 (R 1) (hC 1) (hR 1) (hlt3 1 (by decide))
  have e5 : stepRun cfg env (f + 6) Node.labeler
        (afterRej (afterLab (afterRej (afterLab (initState task cfg) (P 0)) (R 0)) (P 1))
          (R 1)) 2 2 =
      stepRun cfg env (f + 5) Node.critic
        (afterLab (afterRej (afterLab (afterRej (afterLab (initState task cfg) (P 0)) (R 0))
          (P 1)) (R 1)) (P 2)) 3 2 :=
    stepRun_labeler_ok cfg env (f + 5) _ 2 2 (P 2) (hL 2)
  have e6 : stepRun cfg env (f + 5) Node.critic
        (afterLab (afterRej (afterLab (afterRej (afterLab (initState task cfg) (P 0)) (R 0))
          (P 1)) (R 1)) (P 2)) 3 2 =
      stepRun cfg env (f + 4) Node.labeler
        (afterRej (afterLab (afterRej (afterLab (afterRej (afterLab (initState task cfg)
          (P 0)) (R 0)) (P 1)) (R 1)) (P 2)) (R 2)) 3 3 :=
    stepRun_critic_reject cfg env (f + 4) _ 3 2 (R 2) (hC 2) (hR 2) (hlt3 2 (by decide))
  have e7 : stepRun cfg env (f + 4) Node.labeler
        (afterRej (afterLab (afterRej (afterLab (afterRej (afterLab (initState task cfg)
          (P 0)) (R 0)) (P 1)) (R 1)) (P 2)) (R 2)) 3 3 =
      stepRun cfg env (f + 3) Node.critic
        (afterLab (afterRej (afterLab (afterRej (afterLab (afterRej (afterLab
          (initState task cfg) (P 0)) (R 0)) (P 1)) (R 1)) (P 2)) (R 2)) (P 3)) 4 3 :=
    stepRun_labeler_ok cfg env (f + 3) _ 3 3 (P 3) (hL 3)
  have e8 : stepRun cfg env (f + 3) Node.critic
        (afterLab (afterRej (afterLab (afterRej (afterLab (afterRej (afterLab
          (initState task cfg) (P 0)) (R 0)) (P 1)) (R 1)) (P 2)) (R 2)) (P 3)) 4 3 =
      stepRun cfg env (f + 2) Node.fallback
        (afterRejLimit (afterLab (afterRej (afterLab (afterRej (afterLab (afterRej (afterLab
          (initState task cfg) (P 0)) (R 0)) (P 1)) (R 1)) (P 2)) (R 2)) (P 3)) (R 3))
        4 4 :=
    stepRun_critic_reject_limit cfg env (f + 2) _ 4 3 (R 3) (hC 3) (hR 3)
      (by show ¬ (3 : Nat) < cfg.max_retries; rw [hmr]; decide)
  have hfb := stepRun_fallback_done cfg env f
    (afterRejLimit (afterLab (afterRej (afterLab (afterRej (afterLab (afterRej (afterLab
      (initState task cfg) (P 0)) (R 0)) (P 1)) (R 1)) (P 2)) (R 2)) (P 3)) (R 3))
    4 4 (P 3) (R 3) rfl rfl
  have hreason : determineReason
      (afterRejLimit (afterLab (afterRej (afterLab (afterRej (afterLab (afterRej (afterLab
        (initState task cfg) (P 0)) (R 0)) (P 1)) (R 1)) (P 2)) (R 2)) (P 3)) (R 3)) =
      FallbackReason.RETRY_LIMIT :=
    determineReason_retry _ (by show cfg.max_retries ≤ 3; rw [hmr])
  have echain := e1.trans (e2.trans (e3.trans (e4.trans (e5.trans (e6.trans (e7.trans
    (e8.trans hfb)))))))
  refine ⟨_, _, _, echain, rfl, ?_, rfl, ?_, rfl⟩
  · rw [hreason]
    rfl
  · show ((((((initState task cfg).labeler_attempts ++ [P 0]) ++ [P 1]) ++ [P 2]) ++
      [P 3]).length) = 4
    simp [initState]

/-- Witness for C5: the critic rejects every attempt with confidence
50; `max_retries = 3` (default config). -/
theorem claim_c5_witness :
    ∃ sf w v,
      stepRun cfgX envAlwaysReject (2 + 10) Node.labeler (initState taskX cfgX) 0 0 =
        (RunOutcome.finished sf, w) ∧
      sf.validated_output = some v ∧
      v.fallback_reason = some "RETRY_LIMIT" ∧ v.retry_count = 3 ∧
      sf.labeler_attempts.length = 4 ∧ sf.retry_count = 3 :=
  claim_c5_retry_exhaustion envAlwaysReject cfgX taskX (fun n => predC (80 + n))
    (fun _ => revOf false 50) (fun _ => rfl) (fun _ => rfl) (fun _ => rfl) rfl 2

/-- Claim C6 (counterexample).  The claim says that whenever the
Validating stage computes `final_confidence` below the threshold, the
run escalates with reason LOW_CONFIDENCE.  In the run where the critic
rejects three times and then accepts with confidence 60 (labeler 90),
the Validating stage is entered with `final_confidence = 75 < 85`, yet
the recorded reason is RETRY_LIMIT: the fallback node checks the
exhausted retry budget before the confidence substring, so
`retry_count = max_retries` shadows LOW_CONFIDENCE. -/
theorem claim_c6_counterexample :
    ((traceRun cfgX envRejectThenLow 20 Node.labeler (initState taskX cfgX) 0 0).get? 8).map
      (fun p => (p.1, p.2.labeler_output, p.2.critic_review)) =
      some (Node.validator, some (predC 90), some (revOf true 60)) ∧
    Int.fdiv ((predC 90).confidence + (revOf true 60).confidence_score) 2 <
      cfgX.min_confidence_threshold ∧
    ((run_labeling_graph 20 envRejectThenLow taskX cfgX).1).map (fun v => v.fallback_reason) =
      some (some "RETRY_LIMIT") ∧
    ("RETRY_LIMIT" : String) ≠ "LOW_CONFIDENCE" :=
  ⟨rfl, by decide, rfl, by decide⟩

/-- Claim C6 (amended): in the Validating stage, if the computed
`final_confidence` is below `min_confidence_threshold` *and the retry
budget is not exhausted* (`retry_count < max_retries`), the run
escalates to Fallback with reason LOW_CONFIDENCE and terminates with
the degraded record (`final_confidence = 0`, `retry_count`
unchanged); when `retry_count = max_retries` the recorded reason is
RETRY_LIMIT instead (see the counterexample).  The concrete scenario
(labeler 90, critic 60 accepted on the first pass, threshold 85,
`retry_count = 0`) is the witness below. -/
theorem claim_c6_amended (cfg : SystemConfig) (env : Env) (f : Nat) (s : RunState)
    (ln cn : Nat) (p : LabelPrediction) (r : CriticReview)
    (hp : s.labeler_output = some p) (hr : s.critic_review = some r)
    (hlow : Int.fdiv (p.confidence + r.confidence_score) 2 < cfg.min_confidence_threshold)
    (hrc : s.retry_count < s.max_retries) :
    ∃ s2 w, stepRun cfg env (f + 3) Node.validator s ln cn =
        (RunOutcome.finished s2, w) ∧
      (s2.validated_output.map (fun v => (v.fallback_reason, v.retry_count, v.final_confidence))) =
        some (some "LOW_CONFIDENCE", s.retry_count, 0) := by
  have hv := validator_node_low cfg s p r hp hr hlow
  have hfb := stepRun_fallback_done cfg env f
    { s with fallback_to_human := true,
             error_log := s.error_log ++
               [validatorMsg (Int.fdiv (p.confidence + r.confidence_score) 2)
                  cfg.min_confidence_threshold] } ln cn p r hp hr
  have hreason : determineReason
      { s with fallback_to_human := true,
               error_log := s.error_log ++
                 [validatorMsg (Int.fdiv (p.confidence + r.confidence_score) 2)
                    cfg.min_confidence_threshold] } = FallbackReason.LOW_CONFIDENCE := by
    refine determineReason_low _ ?_ ?_
    · show ¬ s.max_retries ≤ s.retry_count
      omega
    · show hasSub "confidence".toList
        (renderLog (s.error_log ++
          [validatorMsg (Int.fdiv (p.confidence + r.confidence_score) 2)
             cfg.min_confidence_threshold])) = true
      exact hasSub_renderLog_mem _ _ _
        (List.mem_append_right s.error_log (List.mem_singleton.mpr rfl))
        (validatorMsg_has_confidence _ _)
  have hstep1 : stepRun cfg env (f + 3) Node.validator s ln cn =
      stepRun cfg env (f + 2) Node.fallback
        { s with fallback_to_human := true,
                 error_log := s.error_log ++
                   [validatorMsg (Int.fdiv (p.confidence + r.confidence_score) 2)
                      cfg.min_confidence_threshold] } ln cn := by
    show stepRun cfg env (Nat.succ (f + 2)) Node.validator s ln cn = _
    rw [stepRun, hv]
  rw [hstep1, hfb]
  refine ⟨_, _, rfl, ?_⟩
  rw [hreason]
  rfl

/-- Witness for C6 (the spec's concrete LOW_CONFIDENCE scenario):
labeler confidence 90, critic accepts with 60 on the first pass,
threshold 85, `final_confidence = 75 < 85`, `retry_count = 0`. -/
theorem claim_c6_witness :
    ∃ s2 w, stepRun cfgX envLowConf (0 + 3) Node.validator sValLow 1 1 =
        (RunOutcome.finished s2, w) ∧
      (s2.validated_output.map (fun v => (v.fallback_reason, v.retry_count, v.final_confidence))) =
        some (some "LOW_CONFIDENCE", sValLow.retry_count, 0) :=
  claim_c6_amended cfgX envLowConf 0 sValLow 1 1 (predC 90) (revOf true 60)
    rfl rfl (by decide) (by decide)

/-- Claim C10: `delete_review_item` matches stored entries by file-name
prefix, not by exact `data_id`: deleting `data_id = "1"` also removes
the stored entry that `write_to_review_queue` created for the distinct
`data_id = "10"`, of which `"1"` is a proper string prefix. -/
theorem claim_c10_delete_by_name_start :
    pyStartsWith "1" "10" = true ∧ ("1" : String) ≠ "10" ∧
    delete_review_item "1" (write_to_review_queue item10 "20240101_000000_000000" []) = [] :=
  ⟨rfl, by decide, rfl⟩

end LabelPipeline
